import Mathlib

/-!
Verification of the `openApiGo` markdown renderer against its specification.

The Go sources under `pkg/markdown` (and the unnamed OpenAPI-3 adapter file)
are shallowly embedded below: Go structs become Lean structures/inductives,
Go maps become association lists whose order models Go's (unspecified) map
iteration order, and each `fmt.Fprintf`/`fmt.Fprintln` on the output buffer
becomes one element of a `List String` of writes; the rendered document is
the concatenation of the writes.  Example values of Go type `any` are
modelled by their `fmt` rendering (a `String`), and `nil`-able pointers by
`Option`.
-/

/-! ## Byte-order string comparison (Go `sort.Strings`) -/

/-- Lexicographic comparison of char lists by code point.  Go's
`sort.Strings` compares UTF-8 bytes; byte order and code-point order agree
for UTF-8, so this is the order `sort.Strings` uses. -/
def charListLe : List Char → List Char → Bool
  | [], _ => true
  | _ :: _, [] => false
  | a :: as, b :: bs =>
    if a.toNat < b.toNat then true
    else if b.toNat < a.toNat then false
    else charListLe as bs

/-- String comparison used by the embedded `sort.Strings`. -/
def strLe (a b : String) : Bool := charListLe a.data b.data

theorem charListLe_total : ∀ l m, charListLe l m = true ∨ charListLe m l = true := by
  intro l
  induction l with
  | nil => intro m; left; rfl
  | cons a as ih =>
    intro m
    cases m with
    | nil => right; rfl
    | cons b bs =>
      simp only [charListLe]
      rcases Nat.lt_trichotomy a.toNat b.toNat with h | h | h
      · left; simp [h]
      · have hab : ¬ a.toNat < b.toNat := by omega
        have hba : ¬ b.toNat < a.toNat := by omega
        simpa [hab, hba] using ih bs
      · right; simp [h]

theorem charListLe_trans :
    ∀ l m n, charListLe l m = true → charListLe m n = true → charListLe l n = true := by
  intro l
  induction l with
  | nil => intro m n _ _; rfl
  | cons a as ih =>
    intro m n h1 h2
    cases m with
    | nil => simp [charListLe] at h1
    | cons b bs =>
      cases n with
      | nil => simp [charListLe] at h2
      | cons c cs =>
        simp only [charListLe] at h1 h2 ⊢
        rcases Nat.lt_trichotomy a.toNat b.toNat with hab | hab | hab
        · rcases Nat.lt_trichotomy b.toNat c.toNat with hbc | hbc | hbc
          · have : a.toNat < c.toNat := by omega
            simp [this]
          · have : a.toNat < c.toNat := by omega
            simp [this]
          · have h1' : ¬ b.toNat < c.toNat := by omega
            simp [h1', hbc] at h2
        · have hab1 : ¬ a.toNat < b.toNat := by omega
          have hab2 : ¬ b.toNat < a.toNat := by omega
          simp [hab1, hab2] at h1
          rcases Nat.lt_trichotomy b.toNat c.toNat with hbc | hbc | hbc
          · have : a.toNat < c.toNat := by omega
            simp [this]
          · have hac1 : ¬ a.toNat < c.toNat := by omega
            have hac2 : ¬ c.toNat < a.toNat := by omega
            have hbc1 : ¬ b.toNat < c.toNat := by omega
            have hbc2 : ¬ c.toNat < b.toNat := by omega
            simp [hbc1, hbc2] at h2
            simp [hac1, hac2]
            exact ih bs cs h1 h2
          · have h2' : ¬ b.toNat < c.toNat := by omega
            simp [h2', hbc] at h2
        · have h1' : ¬ a.toNat < b.toNat := by omega
          simp [h1', hab] at h1

theorem Char.toNat_injective {a b : Char} (h : a.toNat = b.toNat) : a = b :=
  Char.ext (UInt32.ext h)

theorem charListLe_antisymm :
    ∀ l m, charListLe l m = true → charListLe m l = true → l = m := by
  intro l
  induction l with
  | nil =>
    intro m _ h2
    cases m with
    | nil => rfl
    | cons b bs => simp [charListLe] at h2
  | cons a as ih =>
    intro m h1 h2
    cases m with
    | nil => simp [charListLe] at h1
    | cons b bs =>
      simp only [charListLe] at h1 h2
      rcases Nat.lt_trichotomy a.toNat b.toNat with hab | hab | hab
      · have hba : ¬ b.toNat < a.toNat := by omega
        simp [hba, hab] at h2
      · have hab1 : ¬ a.toNat < b.toNat := by omega
        have hab2 : ¬ b.toNat < a.toNat := by omega
        simp [hab1, hab2] at h1 h2
        have := ih bs h1 h2
        have hc : a = b := Char.toNat_injective hab
        rw [hc, this]
      · have hab1 : ¬ a.toNat < b.toNat := by omega
        simp [hab1, hab] at h1

/-- The `Prop`-valued relation fed to `List.insertionSort`. -/
def strLeP (a b : String) : Prop := strLe a b = true

instance : DecidableRel strLeP := fun a b => inferInstanceAs (Decidable (strLe a b = true))

instance : IsTotal String strLeP :=
  ⟨fun a b => charListLe_total a.data b.data⟩

instance : IsTrans String strLeP :=
  ⟨fun a b c h1 h2 => charListLe_trans a.data b.data c.data h1 h2⟩

instance : IsAntisymm String strLeP :=
  ⟨fun a b h1 h2 => String.ext (charListLe_antisymm a.data b.data h1 h2)⟩

/-- Embedded `sort.Strings`: the unique sorted rearrangement of `l` in byte order. -/
def sortStrings (l : List String) : List String := List.insertionSort strLeP l

theorem sortStrings_perm (l : List String) : (sortStrings l).Perm l :=
  List.perm_insertionSort strLeP l

theorem sortStrings_eq_of_perm {l l' : List String} (h : l.Perm l') :
    sortStrings l = sortStrings l' :=
  List.eq_of_perm_of_sorted
    ((sortStrings_perm l).trans (h.trans (sortStrings_perm l').symm))
    (List.sorted_insertionSort strLeP l)
    (List.sorted_insertionSort strLeP l')

theorem mem_sortStrings {a : String} {l : List String} : a ∈ sortStrings l ↔ a ∈ l :=
  (sortStrings_perm l).mem_iff

theorem nodup_sortStrings {l : List String} (h : l.Nodup) : (sortStrings l).Nodup :=
  (sortStrings_perm l).nodup_iff.mpr h

/-- Embedded `sort.Ints` (status codes are naturals here). -/
def sortNats (l : List Nat) : List Nat := List.insertionSort (· ≤ ·) l

/-! ## Small Go string helpers -/

/-- Embedded `strings.HasPrefix`. -/
def strHasPrefix (s pre : String) : Bool := List.isPrefixOf pre.data s.data

/-- Embedded `strings.Join` (source always supplies the separator explicitly). -/
def joinSep (sep : String) : List String → String
  | [] => ""
  | [x] => x
  | x :: y :: xs => x ++ sep ++ joinSep sep (y :: xs)

/-- Go ASCII whitespace characters trimmed by `strings.TrimSpace` (the
Unicode space characters never occur in the strings considered here). -/
def goSpace (c : Char) : Bool :=
  c = ' ' || c = '\t' || c = '\n' || c = '\x0b' || c = '\x0c' || c = '\r'

/-- Embedded `strings.TrimSpace`. -/
def trimSpace (s : String) : String :=
  ⟨((s.data.dropWhile goSpace).reverse.dropWhile goSpace).reverse⟩

/-- Embedded Go `%q` formatting of a string (the escapes that can occur in
version-probe values). -/
def goQuote (s : String) : String :=
  "\"" ++ String.join (s.data.map fun c =>
    if c = '\\' then "\\\\"
    else if c = '"' then "\\\""
    else if c = '\n' then "\\n"
    else if c = '\t' then "\\t"
    else if c = '\r' then "\\r"
    else String.singleton c) ++ "\""

/-- Go map indexing over the association-list model of a map: the value at a
key (first binding; bindings are unique in a Go map). -/
def lookupKey {κ β : Type} [DecidableEq κ] (k : κ) (l : List (κ × β)) : Option β :=
  (l.find? (fun p => decide (p.1 = k))).map (·.2)

theorem lookupKey_eq_of_mem {κ β : Type} [DecidableEq κ] {k : κ} {v : β} {l : List (κ × β)}
    (hnd : (l.map Prod.fst).Nodup) (h : (k, v) ∈ l) : lookupKey k l = some v := by
  induction l with
  | nil => cases h
  | cons p t ih =>
    rcases List.mem_cons.mp h with h | h
    · rw [← h]
      simp [lookupKey, List.find?]
    · have hk : p.1 ≠ k := by
        intro hk
        have : k ∈ t.map Prod.fst := List.mem_map.mpr ⟨(k, v), h, rfl⟩
        rw [List.map_cons] at hnd
        exact (List.nodup_cons.mp hnd).1 (hk ▸ this)
      have hnd' : (t.map Prod.fst).Nodup := by
        rw [List.map_cons] at hnd
        exact (List.nodup_cons.mp hnd).2
      have hstep : lookupKey k (p :: t) = lookupKey k t := by
        unfold lookupKey
        rw [List.find?_cons_of_neg]
        simp [hk]
      rw [hstep]
      exact ih hnd' h

theorem mem_of_lookupKey_eq_some {κ β : Type} [DecidableEq κ] {k : κ} {v : β} {l : List (κ × β)}
    (h : lookupKey k l = some v) : (k, v) ∈ l := by
  unfold lookupKey at h
  rcases hf : l.find? (fun p => decide (p.1 = k)) with _ | p
  · rw [hf] at h; cases h
  · rw [hf] at h
    have hp : p ∈ l := List.mem_of_find?_eq_some hf
    have hk : p.1 = k := by
      have := List.find?_some hf
      simpa using this
    have hv : p.2 = v := by simpa using h
    have : p = (k, v) := Prod.ext hk hv
    rwa [this] at hp

theorem lookupKey_eq_none_iff {κ β : Type} [DecidableEq κ] {k : κ} {l : List (κ × β)} :
    lookupKey k l = none ↔ ∀ p ∈ l, p.1 ≠ k := by
  unfold lookupKey
  simp [List.find?_eq_none]

theorem lookupKey_eq_of_perm {κ β : Type} [DecidableEq κ] {l l' : List (κ × β)}
    (hp : l.Perm l') (hnd : (l.map Prod.fst).Nodup) (k : κ) :
    lookupKey k l = lookupKey k l' := by
  have hnd' : (l'.map Prod.fst).Nodup := ((hp.map Prod.fst).nodup_iff).mp hnd
  rcases h : lookupKey k l with _ | v
  · rw [lookupKey_eq_none_iff] at h
    symm
    rw [lookupKey_eq_none_iff]
    intro p hpmem
    exact h p (hp.mem_iff.mpr hpmem)
  · have hm : (k, v) ∈ l' := hp.mem_iff.mp (mem_of_lookupKey_eq_some h)
    rw [lookupKey_eq_of_mem hnd' hm]

/-! ## Swagger 2.0 data model (`go-openapi/spec` structs, fields the renderer reads) -/

/-- `spec.Schema`: `ref` is the `$ref` string (empty when absent), `items`
models `Items *SchemaOrArray` (outer `none` = nil `Items`, inner `none` =
nil `Items.Schema`), and `dflt`/`enum`/`exampleVal`/extension values carry
the `fmt`-rendered form of the dynamic Go values. -/
inductive S2Schema : Type where
  | mk (ref : String) (type : List String) (format : String)
      (items : Option (Option S2Schema))
      (description : String)
      (properties : List (String × S2Schema))
      (required : List String)
      (dflt : Option String)
      (enum : List String)
      (exampleVal : Option String)
      (extensions : List (String × String))

def S2Schema.ref : S2Schema → String
  | .mk r _ _ _ _ _ _ _ _ _ _ => r

def S2Schema.type : S2Schema → List String
  | .mk _ t _ _ _ _ _ _ _ _ _ => t

def S2Schema.format : S2Schema → String
  | .mk _ _ f _ _ _ _ _ _ _ _ => f

def S2Schema.items : S2Schema → Option (Option S2Schema)
  | .mk _ _ _ i _ _ _ _ _ _ _ => i

def S2Schema.description : S2Schema → String
  | .mk _ _ _ _ d _ _ _ _ _ _ => d

def S2Schema.properties : S2Schema → List (String × S2Schema)
  | .mk _ _ _ _ _ p _ _ _ _ _ => p

def S2Schema.required : S2Schema → List String
  | .mk _ _ _ _ _ _ r _ _ _ _ => r

def S2Schema.dflt : S2Schema → Option String
  | .mk _ _ _ _ _ _ _ d _ _ _ => d

def S2Schema.enum : S2Schema → List String
  | .mk _ _ _ _ _ _ _ _ e _ _ => e

def S2Schema.exampleVal : S2Schema → Option String
  | .mk _ _ _ _ _ _ _ _ _ e _ => e

def S2Schema.extensions : S2Schema → List (String × String)
  | .mk _ _ _ _ _ _ _ _ _ _ x => x

structure S2Contact where
  name : String
  email : String

structure S2License where
  name : String

structure S2Info where
  title : String
  version : String
  description : String
  contact : Option S2Contact
  license : Option S2License

structure S2SecurityScheme where
  type : String
  name : String
  inLoc : String
  authorizationURL : String
  tokenURL : String
  scopes : List (String × String)

structure S2Tag where
  name : String
  description : String

structure S2Parameter where
  inLoc : String
  name : String
  required : Bool
  type : String
  schema : Option S2Schema
  description : String
  dflt : Option String
  enum : List String

structure S2Response where
  description : String
  schema : Option S2Schema
  headers : List String
  examples : List (String × String)

structure S2Responses where
  dflt : Option S2Response
  statusCodeResponses : List (Nat × S2Response)

structure S2Operation where
  tags : List String
  summary : String
  description : String
  id : String
  produces : List String
  consumes : List String
  parameters : List S2Parameter
  responses : Option S2Responses

structure S2PathItem where
  get : Option S2Operation
  put : Option S2Operation
  post : Option S2Operation
  delete : Option S2Operation
  options : Option S2Operation
  head : Option S2Operation
  patch : Option S2Operation

structure SwaggerDoc where
  info : Option S2Info
  securityDefinitions : List (String × S2SecurityScheme)
  schemes : List String
  host : String
  basePath : String
  tags : List S2Tag
  paths : List (String × S2PathItem)
  definitions : List (String × S2Schema)
  produces : List String
  consumes : List String

/-! ## OpenAPI 3.x data model (`kin-openapi/openapi3`, fields the renderer reads) -/

/-- Shape of an `openapi3.Schema` over the type of schema references, so the
nested recursion goes through an ordinary structure. -/
structure OA3SchemaShape (σ : Type) : Type where
  type : Option (List String)
  items : Option σ
  description : String
  properties : List (String × σ)
  required : List String
  dflt : Option String
  enum : List String
  exampleVal : Option String

/-- `openapi3.SchemaRef`: `$ref` string plus the (nil-able) resolved value. -/
inductive OA3SchemaRef : Type where
  | mk (ref : String) (value : Option (OA3SchemaShape OA3SchemaRef))

/-- `openapi3.Schema` (fields the renderer reads). -/
abbrev OA3Schema : Type := OA3SchemaShape OA3SchemaRef

def OA3SchemaRef.ref : OA3SchemaRef → String
  | .mk r _ => r

def OA3SchemaRef.value : OA3SchemaRef → Option OA3Schema
  | .mk _ v => v

structure OA3Contact where
  name : String
  email : String

structure OA3License where
  name : String

structure OA3Info where
  title : String
  description : String
  version : String
  contact : Option OA3Contact
  license : Option OA3License

structure OA3SecurityScheme where
  type : String
  scheme : String
  name : String
  inLoc : String

structure OA3Server where
  url : String
  vars : List String

structure OA3Tag where
  name : String
  description : String

/-- `openapi3.Parameter` (a `nil` `ParameterRef` or a `nil` `Value` inside it
is modelled as `none` at the use sites, which skip both identically). -/
structure OA3Parameter where
  inLoc : String
  name : String
  description : String
  required : Bool
  schema : Option OA3SchemaRef

/-- `openapi3.MediaType`: `examples` maps example names to the example's
`Value.Value`; `none` collapses the nil `ExampleRef` / nil `Value` /
nil `Value.Value` cases, all of which the renderer skips identically. -/
structure OA3MediaType where
  schema : Option OA3SchemaRef
  exampleVal : Option String
  examples : List (String × Option String)

structure OA3RequestBody where
  content : List (String × OA3MediaType)

/-- `openapi3.Response`: `description` models the `*string` field. -/
structure OA3Response where
  description : Option String
  content : List (String × OA3MediaType)

/-- `openapi3.Operation`: `responses` models `*Responses` (and its `.Map()`);
an entry's `none` value collapses nil `ResponseRef` / nil `Value`. -/
structure OA3Operation where
  tags : List String
  summary : String
  description : String
  parameters : List (Option OA3Parameter)
  requestBody : Option OA3RequestBody
  responses : Option (List (String × Option OA3Response))

structure OA3PathItem where
  get : Option OA3Operation
  put : Option OA3Operation
  post : Option OA3Operation
  delete : Option OA3Operation
  options : Option OA3Operation
  head : Option OA3Operation
  patch : Option OA3Operation
  trace : Option OA3Operation
  parameters : List (Option OA3Parameter)

structure OA3Components where
  securitySchemes : List (String × Option OA3SecurityScheme)
  schemas : List (String × OA3SchemaRef)

structure OA3Doc where
  openapi : String
  info : Option OA3Info
  components : OA3Components
  servers : List OA3Server
  tags : List OA3Tag
  paths : Option (List (String × OA3PathItem))

/-! ## `pkg/markdown/helpers.go` -/

/-- `nonEmpty` from helpers.go. -/
def nonEmpty (s fallback : String) : String :=
  if s = "" then fallback else s

/-- `contains` from helpers.go. -/
def contains (list : List String) (v : String) : Bool :=
  list.any (fun x => decide (x = v))

/-- `defaultAsString` from helpers.go over the `fmt`-rendered model of `any`:
`nil` gives the empty string, otherwise the `%v` rendering. -/
def defaultAsString (v : Option String) : String :=
  match v with
  | none => ""
  | some s => s

/-- `enumAsString` from helpers.go over the `fmt`-rendered model. -/
def enumAsString (list : List String) : String :=
  if list = [] then "" else joinSep ", " list

/-- Index of the last `/` in a char list (`strings.LastIndex(ref, "/")`). -/
def lastIndexSlash : List Char → Option Nat
  | [] => none
  | c :: rest =>
    match lastIndexSlash rest with
    | some i => some (i + 1)
    | none => if c = '/' then some 0 else none

/-- `refName` from helpers.go. -/
def refName (ref : String) : String :=
  if ref = "" then ""
  else
    match lastIndexSlash ref.data with
    | some i => if i + 1 < ref.data.length then String.mk (ref.data.drop (i + 1)) else ref
    | none => ref

/-- `hostURL` from helpers.go. -/
def hostURL (schemes : List String) (host basePath : String) : String :=
  let s := match schemes with
    | [] => "http"
    | x :: _ => x
  if host = "" then ""
  else if basePath = "" then s ++ "://" ++ host
  else s ++ "://" ++ host ++ basePath

/-- `schemaSummarySwagger2` from helpers.go (argument models the `*spec.Schema`). -/
def schemaSummarySwagger2 (os : Option S2Schema) : String :=
  match os with
  | none => ""
  | some s =>
    let primCase : String :=
      if s.type ≠ [] then
        if s.format ≠ "" then joinSep "," s.type ++ " (" ++ s.format ++ ")"
        else joinSep "," s.type
      else ""
    if s.ref ≠ "" ∧ refName s.ref ≠ "" then refName s.ref
    else
      match s.type, s.items with
      | [t], some oi =>
        if t = "array" then
          match oi with
          | some isch =>
            if isch.ref ≠ "" ∧ refName isch.ref ≠ "" then refName isch.ref ++ "[]"
            else if isch.type ≠ [] then "array<" ++ joinSep "," isch.type ++ ">"
            else "array"
          | none => "array"
        else primCase
      | _, _ => primCase

/-- The trailing fallback of `typeOfSchemaRef` (declared types, else `object`). -/
def oa3TypeFallback (v : OA3Schema) : String :=
  match v.type with
  | some ts => if ts ≠ [] then joinSep "," ts else "object"
  | none => "object"

/-- `typeOfSchemaRef` from helpers.go (argument models the `*openapi3.SchemaRef`). -/
def typeOfSchemaRef (r : Option OA3SchemaRef) : String :=
  match r with
  | none => "-"
  | some rr =>
    match rr.value with
    | none => "-"
    | some v =>
      if rr.ref ≠ "" then
        match lastIndexSlash rr.ref.data with
        | some i =>
          if i + 1 < rr.ref.data.length then "$ref:" ++ String.mk (rr.ref.data.drop (i + 1))
          else "$ref:" ++ rr.ref
        | none => "$ref:" ++ rr.ref
      else
        match v.type, v.items with
        | some [t], some iref =>
          if t = "array" then
            if iref.ref ≠ "" ∧ refName iref.ref ≠ "" then refName iref.ref ++ "[]"
            else
              match iref.value with
              | some iv =>
                match iv.type with
                | some ts => if ts ≠ [] then "array<" ++ joinSep "," ts ++ ">" else "array"
                | none => "array"
              | none => "array"
          else oa3TypeFallback v
        | _, _ => oa3TypeFallback v

/-- Modelled from the spec: the helper `writeExampleFence` is absent from the
sources (only its call sites remain).  Per the spec it renders one example
tuple as a labeled block (the exact label text is built by each caller)
followed by the literal value in a code fence; the media-type argument only
tunes fence formatting, which nothing here observes. -/
def writeExampleFence (label _mediaType v : String) : List String :=
  ["\n**" ++ label ++ "**\n", "```" ++ "\n" ++ v ++ "\n" ++ "```" ++ "\n"]

/-! ## Tag bucketing (shared shape of both adapters' Endpoints-by-Tag loops) -/

/-- `tagged[tag] = append(tagged[tag], ref)` over the association-list model
of the Go map: append to the existing bucket, or create a new one. -/
def upsertTag {α : Type} (t : String) (r : α) : List (String × List α) → List (String × List α)
  | [] => [(t, [r])]
  | (k, v) :: rest =>
    if k = t then (k, v ++ [r]) :: rest else (k, v) :: upsertTag t r rest

/-- One iteration of the collection loop: an untagged operation goes to the
untagged slice, a tagged one is appended to each of its tags' buckets. -/
def bucketizeStep {α : Type} (tagsOf : α → List String)
    (st : List (String × List α) × List α) (r : α) :
    List (String × List α) × List α :=
  match tagsOf r with
  | [] => (st.1, st.2 ++ [r])
  | ts => (ts.foldl (fun m t => upsertTag t r m) st.1, st.2)

/-- The `tagged` map and `untagged` slice built by the adapters' traversal. -/
def bucketize {α : Type} (tagsOf : α → List String) (refs : List α) :
    List (String × List α) × List α :=
  refs.foldl (bucketizeStep tagsOf) ([], [])

/-- Bucket contents for a tag name (`tagged[name]`, empty when absent). -/
def bucketVal {α : Type} (t : String) (m : List (String × List α)) : List α :=
  (lookupKey t m).getD []

/-! ## Swagger 2.0 adapter: `pkg/markdown/swagger2.go` -/

/-- The `opRef` record of `swagger2ToMarkdown`. -/
structure S2OpRef where
  method : String
  path : String
  op : S2Operation

/-- The fixed method slots of a Swagger 2.0 path item, in source order. -/
def s2Slots (pi : S2PathItem) : List (String × Option S2Operation) :=
  [("GET", pi.get), ("POST", pi.post), ("PUT", pi.put), ("DELETE", pi.delete),
   ("PATCH", pi.patch), ("OPTIONS", pi.options), ("HEAD", pi.head)]

/-- The operation references contributed by one path, in slot order. -/
def s2SlotRefs (p : String) (pi : S2PathItem) : List S2OpRef :=
  (s2Slots pi).filterMap (fun ms => ms.2.map (fun op => S2OpRef.mk ms.1 p op))

/-- All operation references of a document, paths in sorted order. -/
def s2AllRefs (s : SwaggerDoc) : List S2OpRef :=
  (sortStrings (s.paths.map Prod.fst)).flatMap
    (fun p => ((lookupKey p s.paths).map (s2SlotRefs p)).getD [])

/-- One `- %s — type=%s …` line of the Authentication section (the chunk
written by the `fmt.Fprintln`). -/
def s2AuthLineChunk (name : String) (sec : S2SecurityScheme) : String :=
  "- " ++ name ++ " — type=" ++ sec.type
  ++ (if sec.name ≠ "" then ", name=" ++ sec.name else "")
  ++ (if sec.inLoc ≠ "" then ", in=" ++ sec.inLoc else "")
  ++ (if sec.authorizationURL ≠ "" then ", authUrl=" ++ sec.authorizationURL else "")
  ++ (if sec.tokenURL ≠ "" then ", tokenUrl=" ++ sec.tokenURL else "")
  ++ (if sec.scopes ≠ [] then
        ", scopes=[" ++
          joinSep ", " (sortStrings (sec.scopes.map
            (fun kv => if kv.2 ≠ "" then kv.1 ++ " (" ++ kv.2 ++ ")" else kv.1)))
        ++ "]"
      else "")
  ++ "\n"

/-- One `- %s` / `- %s — %s` line of the Tags section. -/
def s2TagLineChunk (t : S2Tag) : String :=
  if t.description ≠ "" then "- " ++ t.name ++ " — " ++ t.description ++ "\n"
  else "- " ++ t.name ++ "\n"

/-- One parameter line of `writeSwagger2Operation`. -/
def s2ParamLineChunk (prm : S2Parameter) : String :=
  let typ :=
    if prm.type = "" then
      match prm.schema with
      | some sch => if sch.type ≠ [] then joinSep "," sch.type else prm.type
      | none => prm.type
    else prm.type
  let desc := trimSpace prm.description
  let dflt := defaultAsString prm.dflt
  let enum := enumAsString prm.enum
  "- " ++ prm.inLoc ++ " `" ++ prm.name ++ "` (" ++ nonEmpty typ "-" ++ ")"
  ++ (if prm.required then " (required)" else "")
  ++ (if desc ≠ "" then " — " ++ desc else "")
  ++ (if dflt ≠ "" then " [default: " ++ dflt ++ "]" else "")
  ++ (if enum ≠ "" then " [enum: " ++ enum ++ "]" else "")
  ++ "\n"

/-- The request-example value of a Swagger 2.0 body schema: schema-level
example, else array-item example, else the `x-example` vendor extension. -/
def s2BodyExample (bs : S2Schema) : Option String :=
  match bs.exampleVal with
  | some e => some e
  | none =>
    match bs.items with
    | some (some isch) =>
      match isch.exampleVal with
      | some e => some e
      | none => lookupKey "x-example" bs.extensions
    | _ => lookupKey "x-example" bs.extensions

/-- The status-line chunk plus example fences for one Swagger 2.0 response. -/
def s2RespWrites (code : Nat) (r : S2Response) : List String :=
  let desc0 := trimSpace r.description
  let desc := if desc0 = "" then "No description" else desc0
  let line :=
    "- " ++ toString code ++ " — " ++ desc
    ++ (match r.schema with
        | some sch =>
          if schemaSummarySwagger2 (some sch) ≠ "" then
            " (schema: " ++ schemaSummarySwagger2 (some sch) ++ ")"
          else ""
        | none => "")
    ++ "\n"
  [line]
  ++ (if r.examples ≠ [] then
        (sortStrings (r.examples.map Prod.fst)).flatMap (fun mt =>
          match lookupKey mt r.examples with
          | none => []
          | some v =>
            writeExampleFence ("Response example (" ++ toString code ++ ", " ++ mt ++ ")") mt v)
      else [])

/-- The `- default — …` line of `writeSwagger2Operation`. -/
def s2DefaultRespLine (r : S2Response) : String :=
  let desc0 := trimSpace r.description
  let desc := if desc0 = "" then "No description" else desc0
  "- default — " ++ desc
  ++ (match r.schema with
      | some sch =>
        if schemaSummarySwagger2 (some sch) ≠ "" then
          " (schema: " ++ schemaSummarySwagger2 (some sch) ++ ")"
        else ""
      | none => "")
  ++ "\n"

/-- `writeSwagger2Operation`, as the list of buffer writes it performs. -/
def writeSwagger2Operation (method path : String) (op : S2Operation)
    (globalProduces globalConsumes : List String) : List String :=
  let produces := if op.produces = [] then globalProduces else op.produces
  let consumes := if op.consumes = [] then globalConsumes else op.consumes
  ["\n#### " ++ method ++ " " ++ path ++ "\n"]
  ++ (if op.summary ≠ "" then [op.summary ++ "\n\n"] else [])
  ++ (if op.description ≠ "" then [op.description ++ "\n\n"] else [])
  ++ (if op.id ≠ "" then ["_Operation ID_: `" ++ op.id ++ "`\n\n"] else [])
  ++ (if produces ≠ [] then
        "**Produces**\n" :: produces.map (fun mt => "- " ++ mt ++ "\n") ++ ["\n"]
      else [])
  ++ (if consumes ≠ [] then
        "**Consumes**\n" :: consumes.map (fun mt => "- " ++ mt ++ "\n") ++ ["\n"]
      else [])
  ++ (if op.parameters.isEmpty then []
      else "**Parameters**\n" :: op.parameters.map s2ParamLineChunk)
  ++ (match (op.parameters.find? (fun prm => decide (prm.inLoc = "body") && prm.schema.isSome)).bind
        S2Parameter.schema with
      | none => []
      | some bs =>
        match s2BodyExample bs with
        | none => []
        | some ex =>
          if consumes ≠ [] then
            consumes.flatMap (fun mt =>
              writeExampleFence ("Request example (" ++ mt ++ ")") mt ex)
          else writeExampleFence "Request example" "" ex)
  ++ (match op.responses with
      | none => []
      | some rs =>
        if !rs.statusCodeResponses.isEmpty || rs.dflt.isSome then
          "\n**Responses**\n"
          :: ((sortNats (rs.statusCodeResponses.map Prod.fst)).flatMap (fun code =>
                match lookupKey code rs.statusCodeResponses with
                | none => []
                | some r => s2RespWrites code r))
          ++ (match rs.dflt with
              | some r => [s2DefaultRespLine r]
              | none => [])
        else [])

/-- One schema entry (`### name` heading onward) of the Schemas section. -/
def s2SchemaEntryWrites (name : String) (sch : S2Schema) : List String :=
  ["\n### " ++ name ++ "\n"]
  ++ (if sch.description ≠ "" then [sch.description ++ "\n\n"] else [])
  ++ (if !sch.properties.isEmpty then
        "**Properties**\n" ::
          (sortStrings (sch.properties.map Prod.fst)).flatMap (fun pn =>
            match lookupKey pn sch.properties with
            | none => []
            | some ps =>
              let typ := nonEmpty (schemaSummarySwagger2 (some ps)) "-"
              let desc := trimSpace ps.description
              let dflt := defaultAsString ps.dflt
              let enum := enumAsString ps.enum
              ["- `" ++ pn ++ "` (" ++ typ ++ ")"
               ++ (if contains sch.required pn then " (required)" else "")
               ++ (if desc ≠ "" then " — " ++ desc else "")
               ++ (if dflt ≠ "" then " [default: " ++ dflt ++ "]" else "")
               ++ (if enum ≠ "" then " [enum: " ++ enum ++ "]" else "")
               ++ "\n"])
      else [])
  ++ (match sch.exampleVal with
      | some ex => writeExampleFence "Example" "application/json" ex
      | none =>
        match lookupKey "x-example" sch.extensions with
        | some v => writeExampleFence "Example" "application/json" v
        | none => [])

/-- The Examples-index lines contributed by one response entry (note the
status codes arrive in map-iteration order, not sorted). -/
def s2ExampleIndexLine (method p : String) (cr : Nat × S2Response) : List String :=
  if cr.2.headers.isEmpty && cr.2.schema.isNone && cr.2.examples.isEmpty then []
  else if !cr.2.examples.isEmpty then
    ["- " ++ method ++ " " ++ p ++ " " ++ toString cr.1 ++ " — has inline examples\n"]
  else []

/-- `swagger2ToMarkdown` after a successful parse: the full list of buffer
writes, in source order. -/
def swagger2Writes (s : SwaggerDoc) : List String :=
  let title := match s.info with
    | some i => if i.title ≠ "" then i.title else "-"
    | none => "-"
  let version := match s.info with
    | some i => if i.version ≠ "" then i.version else "-"
    | none => "-"
  let sortedPaths := sortStrings (s.paths.map Prod.fst)
  ["# " ++ title ++ "\n\n", "## Overview\n", "- Version: " ++ version ++ "\n"]
  ++ (match s.info with
      | some i =>
        (if i.description ≠ "" then ["- Description: " ++ trimSpace i.description ++ "\n"] else [])
        ++ (match i.contact with
            | some c =>
              (if c.name ≠ "" then ["- Contact: " ++ c.name ++ "\n"] else [])
              ++ (if c.email ≠ "" then ["- Contact Email: " ++ c.email ++ "\n"] else [])
            | none => [])
        ++ (match i.license with
            | some lic => if lic.name ≠ "" then ["- License: " ++ lic.name ++ "\n"] else []
            | none => [])
      | none => [])
  ++ ["\n## Authentication\n"]
  ++ (if s.securityDefinitions.isEmpty then ["- None defined\n"]
      else s.securityDefinitions.map (fun nv => s2AuthLineChunk nv.1 nv.2))
  ++ ["\n## Servers\n"]
  ++ (let hostLine := hostURL s.schemes s.host s.basePath
      if hostLine ≠ "" then ["- " ++ hostLine ++ "\n"] else ["- None defined\n"])
  ++ ["\n## Tags\n"]
  ++ (if s.tags.isEmpty then ["- None defined\n"] else s.tags.map s2TagLineChunk)
  ++ ["\n## Endpoints by Tag\n"]
  ++ (let buckets := bucketize (fun r : S2OpRef => r.op.tags) (s2AllRefs s)
      (sortStrings (buckets.1.map Prod.fst)).flatMap (fun name =>
        ("\n### " ++ name ++ "\n")
        :: (bucketVal name buckets.1).flatMap
             (fun r => writeSwagger2Operation r.method r.path r.op s.produces s.consumes))
      ++ (if !buckets.2.isEmpty then
            "\n### Untagged\n"
            :: buckets.2.flatMap
                 (fun r => writeSwagger2Operation r.method r.path r.op s.produces s.consumes)
          else []))
  ++ (if !s.definitions.isEmpty then
        "\n## Schemas\n"
        :: (sortStrings (s.definitions.map Prod.fst)).flatMap (fun name =>
             match lookupKey name s.definitions with
             | none => []
             | some sch => s2SchemaEntryWrites name sch)
      else [])
  ++ ["\n## Examples\n"]
  ++ sortedPaths.flatMap (fun p =>
       match lookupKey p s.paths with
       | none => []
       | some pi =>
         (s2Slots pi).flatMap (fun ms =>
           match ms.2 with
           | none => []
           | some op =>
             match op.responses with
             | none => []
             | some rs => rs.statusCodeResponses.flatMap (s2ExampleIndexLine ms.1 p)))

/-- The rendered Swagger 2.0 markdown (the buffer's final contents). -/
def swagger2Render (s : SwaggerDoc) : String := String.join (swagger2Writes s)

/-! ## OpenAPI 3.x adapter: `openAPI3ToMarkdown` and `writeOpenAPI3Operation` -/

/-- The `opRef` record of `openAPI3ToMarkdown` (it also carries the path item). -/
structure OA3OpRef where
  method : String
  path : String
  pathItem : OA3PathItem
  op : OA3Operation

/-- The fixed method slots of an OpenAPI 3 path item, in source order. -/
def oa3Slots (pi : OA3PathItem) : List (String × Option OA3Operation) :=
  [("GET", pi.get), ("POST", pi.post), ("PUT", pi.put), ("DELETE", pi.delete),
   ("PATCH", pi.patch), ("OPTIONS", pi.options), ("HEAD", pi.head), ("TRACE", pi.trace)]

/-- The operation references contributed by one path, in slot order. -/
def oa3SlotRefs (p : String) (pi : OA3PathItem) : List OA3OpRef :=
  (oa3Slots pi).filterMap (fun ms => ms.2.map (fun op => OA3OpRef.mk ms.1 p pi op))

/-- All operation references of the path map, paths in sorted order. -/
def oa3AllRefs (pm : List (String × OA3PathItem)) : List OA3OpRef :=
  (sortStrings (pm.map Prod.fst)).flatMap
    (fun p => ((lookupKey p pm).map (oa3SlotRefs p)).getD [])

/-- One security-scheme line of the OpenAPI 3 Authentication section. -/
def oa3AuthLineChunk (name : String) (ss : OA3SecurityScheme) : String :=
  "- " ++ name ++ " — type=" ++ ss.type
  ++ (if ss.scheme ≠ "" then ", scheme=" ++ ss.scheme else "")
  ++ (if ss.name ≠ "" then ", name=" ++ ss.name else "")
  ++ (if ss.inLoc ≠ "" then ", in=" ++ ss.inLoc else "")
  ++ "\n"

/-- One `- %s` / `- %s — %s` line of the OpenAPI 3 Tags section. -/
def oa3TagLineChunk (t : OA3Tag) : String :=
  if t.description ≠ "" then "- " ++ t.name ++ " — " ++ t.description ++ "\n"
  else "- " ++ t.name ++ "\n"

/-- One parameter line of `writeOpenAPI3Operation` (skipped entries give none). -/
def oa3ParamLineChunk (pr : Option OA3Parameter) : Option String :=
  match pr with
  | none => none
  | some par =>
    let typ :=
      match par.schema with
      | some sr =>
        match sr.value with
        | some _ => typeOfSchemaRef par.schema
        | none => "-"
      | none => "-"
    let desc := trimSpace par.description
    let dflt :=
      match par.schema with
      | some sr =>
        match sr.value with
        | some v => defaultAsString v.dflt
        | none => ""
      | none => ""
    some ("- " ++ par.inLoc ++ " `" ++ par.name ++ "` (" ++ typ ++ ")"
      ++ (if par.required then " (required)" else "")
      ++ (if desc ≠ "" then " — " ++ desc else "")
      ++ (if dflt ≠ "" then " [default: " ++ dflt ++ "]" else "")
      ++ "\n")

/-- The `- %s — schema: %s` line plus example fences for one request-body
media type. -/
def oa3RequestMediaWrites (mt : String) (media : OA3MediaType) : List String :=
  let typ :=
    match media.schema with
    | some sr =>
      match sr.value with
      | some _ => typeOfSchemaRef media.schema
      | none => "-"
    | none => "-"
  ["- " ++ mt ++ " — schema: " ++ typ ++ "\n"]
  ++ (match media.exampleVal with
      | some e => writeExampleFence ("Request example (" ++ mt ++ ")") mt e
      | none => [])
  ++ (if !media.examples.isEmpty then
        (sortStrings (media.examples.map Prod.fst)).flatMap (fun name =>
          match lookupKey name media.examples with
          | some (some v) =>
            writeExampleFence ("Request example (" ++ name ++ ", " ++ mt ++ ")") mt v
          | _ => [])
      else [])

/-- The `  - %s — schema: %s` line plus example fences for one response
media type. -/
def oa3ResponseMediaWrites (code mt : String) (media : OA3MediaType) : List String :=
  let typ :=
    match media.schema with
    | some sr =>
      match sr.value with
      | some _ => typeOfSchemaRef media.schema
      | none => "-"
    | none => "-"
  ["  - " ++ mt ++ " — schema: " ++ typ ++ "\n"]
  ++ (match media.exampleVal with
      | some e =>
        writeExampleFence ("Response example (" ++ code ++ ", " ++ mt ++ ")") mt e
      | none => [])
  ++ (if !media.examples.isEmpty then
        (sortStrings (media.examples.map Prod.fst)).flatMap (fun name =>
          match lookupKey name media.examples with
          | some (some v) =>
            writeExampleFence
              ("Response example (" ++ name ++ ", " ++ code ++ ", " ++ mt ++ ")") mt v
          | _ => [])
      else [])

/-- The writes for one OpenAPI 3 response entry (status line and nested
media-type sub-list). -/
def oa3RespWrites (code : String) (r : OA3Response) : List String :=
  let desc0 := match r.description with
    | some d => trimSpace d
    | none => "No description"
  let desc := if desc0 = "" then "No description" else desc0
  ["- " ++ code ++ " — " ++ desc ++ "\n"]
  ++ (if !r.content.isEmpty then
        (sortStrings (r.content.map Prod.fst)).flatMap (fun mt =>
          match lookupKey mt r.content with
          | none => []
          | some media => oa3ResponseMediaWrites code mt media)
      else [])

/-- `writeOpenAPI3Operation`, as the list of buffer writes it performs. -/
def writeOpenAPI3Operation (method path : String) (pi : OA3PathItem)
    (op : OA3Operation) : List String :=
  let params := pi.parameters ++ op.parameters
  ["\n#### " ++ method ++ " " ++ path ++ "\n"]
  ++ (if op.summary ≠ "" then [op.summary ++ "\n\n"] else [])
  ++ (if op.description ≠ "" then [op.description ++ "\n\n"] else [])
  ++ (if params.isEmpty then []
      else "**Parameters**\n" :: params.filterMap oa3ParamLineChunk)
  ++ (match op.requestBody with
      | none => []
      | some rb =>
        if !rb.content.isEmpty then
          "\n**Request Body**\n"
          :: (sortStrings (rb.content.map Prod.fst)).flatMap (fun mt =>
               match lookupKey mt rb.content with
               | none => []
               | some media => oa3RequestMediaWrites mt media)
        else [])
  ++ (match op.responses with
      | none => []
      | some rs =>
        if !rs.isEmpty then
          "\n**Responses**\n"
          :: (sortStrings (rs.map Prod.fst)).flatMap (fun code =>
               match lookupKey code rs with
               | some (some r) => oa3RespWrites code r
               | _ => [])
        else [])

/-- One schema entry of the OpenAPI 3 Schemas section (the heading is
printed even when the reference has no resolved value). -/
def oa3SchemaEntryWrites (name : String) (ref : OA3SchemaRef) : List String :=
  ["\n### " ++ name ++ "\n"]
  ++ (match ref.value with
      | none => []
      | some v =>
        (if v.description ≠ "" then [v.description ++ "\n\n"] else [])
        ++ (if !v.properties.isEmpty then
              "**Properties**\n" ::
                (sortStrings (v.properties.map Prod.fst)).flatMap (fun pn =>
                  match lookupKey pn v.properties with
                  | none => []
                  | some ps =>
                    let typ := typeOfSchemaRef (some ps)
                    let desc := match ps.value with
                      | some pv => trimSpace pv.description
                      | none => ""
                    let dflt := match ps.value with
                      | some pv => defaultAsString pv.dflt
                      | none => ""
                    let enum := match ps.value with
                      | some pv => if !pv.enum.isEmpty then joinSep ", " pv.enum else ""
                      | none => ""
                    ["- `" ++ pn ++ "` (" ++ typ ++ ")"
                     ++ (if contains v.required pn then " (required)" else "")
                     ++ (if desc ≠ "" then " — " ++ desc else "")
                     ++ (if dflt ≠ "" then " [default: " ++ dflt ++ "]" else "")
                     ++ (if enum ≠ "" then " [enum: " ++ enum ++ "]" else "")
                     ++ "\n"])
            else [])
        ++ (match v.exampleVal with
            | some e => writeExampleFence "Example" "application/json" e
            | none => []))

/-- The Examples-index lines contributed by one OpenAPI 3 response entry
(status codes arrive in map-iteration order, not sorted). -/
def oa3ExampleIndexLine (method p : String) (cr : String × Option OA3Response) :
    List String :=
  match cr.2 with
  | none => []
  | some r =>
    if r.content.isEmpty then []
    else if r.content.any (fun mv => mv.2.exampleVal.isSome || !mv.2.examples.isEmpty) then
      ["- " ++ method ++ " " ++ p ++ " " ++ cr.1 ++ " — has inline examples\n"]
    else []

/-- `openAPI3ToMarkdown` after a successful parse: the full list of buffer
writes, in source order. -/
def openAPI3Writes (doc : OA3Doc) : List String :=
  let title := match doc.info with
    | some i => if i.title ≠ "" then i.title else "-"
    | none => "-"
  let desc := match doc.info with
    | some i => if i.description ≠ "" then trimSpace i.description else ""
    | none => ""
  let version := match doc.info with
    | some i =>
      if i.version ≠ "" then i.version
      else if doc.openapi ≠ "" then doc.openapi else "-"
    | none => if doc.openapi ≠ "" then doc.openapi else "-"
  ["# " ++ title ++ "\n\n", "## Overview\n", "- Version: " ++ version ++ "\n"]
  ++ (if desc ≠ "" then ["- Description: " ++ desc ++ "\n"] else [])
  ++ (match doc.info with
      | some i =>
        (match i.contact with
         | some c =>
           (if c.name ≠ "" then ["- Contact: " ++ c.name ++ "\n"] else [])
           ++ (if c.email ≠ "" then ["- Contact Email: " ++ c.email ++ "\n"] else [])
         | none => [])
        ++ (match i.license with
            | some lic => if lic.name ≠ "" then ["- License: " ++ lic.name ++ "\n"] else []
            | none => [])
      | none => [])
  ++ ["\n## Authentication\n"]
  ++ (if doc.components.securitySchemes.isEmpty then ["- None defined\n"]
      else
        (sortStrings (doc.components.securitySchemes.map Prod.fst)).flatMap (fun name =>
          match lookupKey name doc.components.securitySchemes with
          | some (some ss) => [oa3AuthLineChunk name ss]
          | _ => []))
  ++ ["\n## Servers\n"]
  ++ (if doc.servers.isEmpty then ["- None defined\n"]
      else doc.servers.map (fun sv =>
        "- " ++ (sv.url ++ (if !sv.vars.isEmpty then " {vars}" else "")) ++ "\n"))
  ++ ["\n## Tags\n"]
  ++ (if doc.tags.isEmpty then ["- None defined\n"] else doc.tags.map oa3TagLineChunk)
  ++ ["\n## Endpoints by Tag\n"]
  ++ (match doc.paths with
      | none => ["- None defined\n"]
      | some pm =>
        let buckets := bucketize (fun r : OA3OpRef => r.op.tags) (oa3AllRefs pm)
        (sortStrings (buckets.1.map Prod.fst)).flatMap (fun name =>
          ("\n### " ++ name ++ "\n")
          :: (bucketVal name buckets.1).flatMap
               (fun r => writeOpenAPI3Operation r.method r.path r.pathItem r.op))
        ++ (if !buckets.2.isEmpty then
              "\n### Untagged\n"
              :: buckets.2.flatMap
                   (fun r => writeOpenAPI3Operation r.method r.path r.pathItem r.op)
            else []))
  ++ (if !doc.components.schemas.isEmpty then
        "\n## Schemas\n"
        :: (sortStrings (doc.components.schemas.map Prod.fst)).flatMap (fun name =>
             match lookupKey name doc.components.schemas with
             | none => []
             | some ref => oa3SchemaEntryWrites name ref)
      else [])
  ++ ["\n## Examples\n"]
  ++ (match doc.paths with
      | none => ["- None defined\n"]
      | some pm =>
        (sortStrings (pm.map Prod.fst)).flatMap (fun p =>
          match lookupKey p pm with
          | none => []
          | some pi =>
            (oa3Slots pi).flatMap (fun ms =>
              match ms.2 with
              | none => []
              | some op =>
                match op.responses with
                | none => []
                | some rs => rs.flatMap (oa3ExampleIndexLine ms.1 p))))

/-- The rendered OpenAPI 3 markdown (the buffer's final contents). -/
def openAPI3Render (doc : OA3Doc) : String := String.join (openAPI3Writes doc)

/-! ## Version dispatcher: `pkg/markdown/markdown.go` -/

/-- A normalized input to `ToMarkdown`: the two version-probe fields read
from the JSON (empty string when absent) and the outcome of handing the
bytes to each dialect's parser (the error text of a failed parse is kept so
the wrapped messages can be formed).  Byte-level JSON/YAML normalization is
outside the core per the spec. -/
structure Input where
  swaggerProbe : String
  openapiProbe : String
  parseA : Except String SwaggerDoc
  parseB : Except String OA3Doc

/-- `swagger2ToMarkdown` as seen by the dispatcher: Go's `(md, err)` pair.
A parse failure returns the wrapped error with empty output; a successful
parse renders completely (the walk of the embedded document is total, which
models the adapter's recover-to-error guard never firing). -/
def swagger2ToMarkdown (i : Input) : String × Option String :=
  match i.parseA with
  | .error e => ("", some ("parse swagger 2.0: " ++ e))
  | .ok d => (swagger2Render d, none)

/-- `openAPI3ToMarkdown` as seen by the dispatcher (validation failures are
swallowed by the source, so options do not affect the output). -/
def openAPI3ToMarkdown (i : Input) : String × Option String :=
  match i.parseB with
  | .error e => ("", some ("parse openapi 3: " ++ e))
  | .ok d => (openAPI3Render d, none)

/-- The classification-failure message of `ToMarkdown`. -/
def versionFailureMsg (i : Input) : String :=
  "could not detect or parse OpenAPI version (swagger=" ++ goQuote i.swaggerProbe
  ++ ", openapi=" ++ goQuote i.openapiProbe ++ ")"

/-- `ToMarkdown` from markdown.go: the version switch and the A-then-B
fallback for ambiguous documents. -/
def toMarkdown (i : Input) : String × Option String :=
  if strHasPrefix i.swaggerProbe "2.0" then swagger2ToMarkdown i
  else if strHasPrefix i.openapiProbe "3." then openAPI3ToMarkdown i
  else
    match swagger2ToMarkdown i with
    | (md, none) => (md, none)
    | _ =>
      match openAPI3ToMarkdown i with
      | (md, none) => (md, none)
      | _ => ("", some (versionFailureMsg i))

/-! ## Claims -/

theorem refName_ne_empty {r : String} (h : r ≠ "") : refName r ≠ "" := by
  unfold refName
  rw [if_neg h]
  rcases hls : lastIndexSlash r.data with _ | i
  · simp only [hls]
    exact h
  · simp only [hls]
    by_cases hlen : i + 1 < r.data.length
    · simp only [if_pos hlen]
      intro hc
      have hnil : r.data.drop (i + 1) = [] := congrArg String.data hc
      rw [List.drop_eq_nil_iff] at hnil
      omega
    · simp only [if_neg hlen]
      exact h

/-- C5: for a schema node whose declared type is exactly `array`, both
dialects' summarizers return `<Name>[]` when the item schema is a reference,
`array<t1,t2,...>` when the item declares primitive types, and the bare
token `array` when the item carries no usable type information. -/
theorem C5_array_summarization :
    (∀ s isch : S2Schema, s.ref = "" → s.type = ["array"] → s.items = some (some isch) →
       isch.ref ≠ "" → schemaSummarySwagger2 (some s) = refName isch.ref ++ "[]")
  ∧ (∀ s isch : S2Schema, s.ref = "" → s.type = ["array"] → s.items = some (some isch) →
       isch.ref = "" → isch.type ≠ [] →
       schemaSummarySwagger2 (some s) = "array<" ++ joinSep "," isch.type ++ ">")
  ∧ (∀ s isch : S2Schema, s.ref = "" → s.type = ["array"] → s.items = some (some isch) →
       isch.ref = "" → isch.type = [] → schemaSummarySwagger2 (some s) = "array")
  ∧ (∀ s : S2Schema, s.ref = "" → s.type = ["array"] → s.items = some none →
       schemaSummarySwagger2 (some s) = "array")
  ∧ (∀ (rr : OA3SchemaRef) (v : OA3Schema) (iref : OA3SchemaRef),
       rr.ref = "" → rr.value = some v → v.type = some ["array"] → v.items = some iref →
       iref.ref ≠ "" → typeOfSchemaRef (some rr) = refName iref.ref ++ "[]")
  ∧ (∀ (rr : OA3SchemaRef) (v : OA3Schema) (iref : OA3SchemaRef) (iv : OA3Schema)
       (ts : List String),
       rr.ref = "" → rr.value = some v → v.type = some ["array"] → v.items = some iref →
       iref.ref = "" → iref.value = some iv → iv.type = some ts → ts ≠ [] →
       typeOfSchemaRef (some rr) = "array<" ++ joinSep "," ts ++ ">")
  ∧ (∀ (rr : OA3SchemaRef) (v : OA3Schema) (iref : OA3SchemaRef),
       rr.ref = "" → rr.value = some v → v.type = some ["array"] → v.items = some iref →
       iref.ref = "" →
       (iref.value = none ∨ (∃ iv, iref.value = some iv ∧ (iv.type = none ∨ iv.type = some []))) →
       typeOfSchemaRef (some rr) = "array") := by
  refine ⟨?_, ?_, ?_, ?_, ?_, ?_, ?_⟩
  · intro s isch h1 h2 h3 h4
    simp [schemaSummarySwagger2, h1, h2, h3, h4, refName_ne_empty h4]
  · intro s isch h1 h2 h3 h4 h5
    simp [schemaSummarySwagger2, h1, h2, h3, h4, h5]
  · intro s isch h1 h2 h3 h4 h5
    simp [schemaSummarySwagger2, h1, h2, h3, h4, h5]
  · intro s h1 h2 h3
    simp [schemaSummarySwagger2, h1, h2, h3]
  · intro rr v iref h1 h2 h3 h4 h5
    simp [typeOfSchemaRef, h1, h2, h3, h4, h5, refName_ne_empty h5]
  · intro rr v iref iv ts h1 h2 h3 h4 h5 h6 h7 h8
    simp [typeOfSchemaRef, h1, h2, h3, h4, h5, h6, h7, h8]
  · intro rr v iref h1 h2 h3 h4 h5 h6
    rcases h6 with h6 | ⟨iv, h6, h7⟩
    · simp [typeOfSchemaRef, h1, h2, h3, h4, h5, h6]
    · rcases h7 with h7 | h7 <;>
        simp [typeOfSchemaRef, h1, h2, h3, h4, h5, h6, h7]

def s2PetItem : S2Schema := .mk "#/definitions/Pet" [] "" none "" [] [] none [] none []

def s2ArrayOfPet : S2Schema :=
  .mk "" ["array"] "" (some (some s2PetItem)) "" [] [] none [] none []

def s2StringItem : S2Schema := .mk "" ["string"] "" none "" [] [] none [] none []

def s2ArrayOfString : S2Schema :=
  .mk "" ["array"] "" (some (some s2StringItem)) "" [] [] none [] none []

def oa3PetItemRef : OA3SchemaRef := .mk "#/components/schemas/Pet" none

def oa3ArrayOfPetVal : OA3Schema :=
  { type := some ["array"], items := some oa3PetItemRef, description := "",
    properties := [], required := [], dflt := none, enum := [], exampleVal := none }

def oa3ArrayOfPetRef : OA3SchemaRef := .mk "" (some oa3ArrayOfPetVal)

def oa3StringItemVal : OA3Schema :=
  { type := some ["string"], items := none, description := "",
    properties := [], required := [], dflt := none, enum := [], exampleVal := none }

def oa3StringItemRef : OA3SchemaRef := .mk "" (some oa3StringItemVal)

def oa3ArrayOfStringVal : OA3Schema :=
  { type := some ["array"], items := some oa3StringItemRef, description := "",
    properties := [], required := [], dflt := none, enum := [], exampleVal := none }

def oa3ArrayOfStringRef : OA3SchemaRef := .mk "" (some oa3ArrayOfStringVal)

/-- C5 witness: an array of `Pet` references summarizes to `Pet[]` and an
array of `string` items to `array<string>`, in both dialects. -/
theorem C5_witness :
    schemaSummarySwagger2 (some s2ArrayOfPet) = "Pet[]"
  ∧ schemaSummarySwagger2 (some s2ArrayOfString) = "array<string>"
  ∧ typeOfSchemaRef (some oa3ArrayOfPetRef) = "Pet[]"
  ∧ typeOfSchemaRef (some oa3ArrayOfStringRef) = "array<string>" := by
  refine ⟨?_, ?_, ?_, ?_⟩
  · exact (C5_array_summarization.1 s2ArrayOfPet s2PetItem rfl rfl rfl
      (by decide)).trans (by decide)
  · exact (C5_array_summarization.2.1 s2ArrayOfString s2StringItem rfl rfl rfl rfl
      (by decide)).trans (by decide)
  · exact (C5_array_summarization.2.2.2.2.1 oa3ArrayOfPetRef oa3ArrayOfPetVal oa3PetItemRef
      rfl rfl rfl rfl (by decide)).trans (by decide)
  · exact (C5_array_summarization.2.2.2.2.2.1 oa3ArrayOfStringRef oa3ArrayOfStringVal
      oa3StringItemRef oa3StringItemVal ["string"] rfl rfl rfl rfl rfl rfl rfl
      (by decide)).trans (by decide)

def s2EmptySchema : S2Schema := .mk "" [] "" none "" [] [] none [] none []

def oa3EmptyVal : OA3Schema :=
  { type := none, items := none, description := "",
    properties := [], required := [], dflt := none, enum := [], exampleVal := none }

def oa3EmptyRef : OA3SchemaRef := .mk "" (some oa3EmptyVal)

/-- C6 counterexample: the dialect-A summarizer applied to a node that is not
a reference, not an array and declares no primitive type returns the empty
string, not the placeholder `-` the claim states. -/
theorem C6_counterexample :
    schemaSummarySwagger2 (some s2EmptySchema) = ""
  ∧ schemaSummarySwagger2 (some s2EmptySchema) ≠ "-" := by
  constructor
  · decide
  · decide

/-- C6 amended: the summarizers are total; a dialect-B node that is not a
reference, not a usable array and declares no primitive type summarizes to
`object`, while the dialect-A summarizer returns the empty string for such
nodes and the property-table call site substitutes the placeholder `-` via
`nonEmpty`. -/
theorem C6_totality_and_fallback :
    (∀ (rr : OA3SchemaRef) (v : OA3Schema), rr.ref = "" → rr.value = some v →
       (v.type = none ∨ v.type = some []) → typeOfSchemaRef (some rr) = "object")
  ∧ (∀ s : S2Schema, s.ref = "" → s.type = [] → schemaSummarySwagger2 (some s) = "")
  ∧ (∀ s : S2Schema, s.ref = "" → s.type = [] →
       nonEmpty (schemaSummarySwagger2 (some s)) "-" = "-") := by
  refine ⟨?_, ?_, ?_⟩
  · intro rr v h1 h2 h3
    rcases h3 with h3 | h3 <;>
      simp [typeOfSchemaRef, h1, h2, h3, oa3TypeFallback]
  · intro s h1 h2
    simp [schemaSummarySwagger2, h1, h2]
  · intro s h1 h2
    simp [schemaSummarySwagger2, h1, h2, nonEmpty]

/-- C6 witness: concrete empty nodes exercising the amended statement. -/
theorem C6_witness :
    typeOfSchemaRef (some oa3EmptyRef) = "object"
  ∧ nonEmpty (schemaSummarySwagger2 (some s2EmptySchema)) "-" = "-" :=
  ⟨C6_totality_and_fallback.1 oa3EmptyRef oa3EmptyVal rfl rfl (Or.inl rfl),
   C6_totality_and_fallback.2.2 s2EmptySchema rfl rfl⟩

/-- C2: the version dispatcher renders as dialect A when the legacy probe
starts with `2.0`, else as dialect B when the modern probe starts with `3.`,
else tries dialect A and then dialect B, and only when both fail returns the
error naming both probe values; in particular, with neither probe matching,
a document dialect A's parser accepts renders exactly as dialect A, whatever
dialect B would have done. -/
theorem C2_dispatcher :
    (∀ i : Input, strHasPrefix i.swaggerProbe "2.0" = true →
       toMarkdown i = swagger2ToMarkdown i)
  ∧ (∀ i : Input, strHasPrefix i.swaggerProbe "2.0" = false →
       strHasPrefix i.openapiProbe "3." = true →
       toMarkdown i = openAPI3ToMarkdown i)
  ∧ (∀ (i : Input) (d : SwaggerDoc), strHasPrefix i.swaggerProbe "2.0" = false →
       strHasPrefix i.openapiProbe "3." = false →
       i.parseA = .ok d →
       toMarkdown i = (swagger2Render d, none))
  ∧ (∀ (i : Input) (e : String) (d : OA3Doc), strHasPrefix i.swaggerProbe "2.0" = false →
       strHasPrefix i.openapiProbe "3." = false →
       i.parseA = .error e →
       i.parseB = .ok d →
       toMarkdown i = (openAPI3Render d, none))
  ∧ (∀ (i : Input) (e e' : String), strHasPrefix i.swaggerProbe "2.0" = false →
       strHasPrefix i.openapiProbe "3." = false →
       i.parseA = .error e →
       i.parseB = .error e' →
       toMarkdown i = ("", some (versionFailureMsg i))) := by
  refine ⟨?_, ?_, ?_, ?_, ?_⟩
  · intro i h1
    simp [toMarkdown, h1]
  · intro i h1 h2
    simp [toMarkdown, h1, h2]
  · intro i d h1 h2 h3
    simp [toMarkdown, h1, h2, swagger2ToMarkdown, h3]
  · intro i e d h1 h2 h3 h4
    simp [toMarkdown, h1, h2, swagger2ToMarkdown, h3, openAPI3ToMarkdown, h4]
  · intro i e e' h1 h2 h3 h4
    simp [toMarkdown, h1, h2, swagger2ToMarkdown, h3, openAPI3ToMarkdown, h4]

def s2DocEmpty : SwaggerDoc :=
  { info := none, securityDefinitions := [], schemes := [], host := "", basePath := "",
    tags := [], paths := [], definitions := [], produces := [], consumes := [] }

def oa3DocEmpty : OA3Doc :=
  { openapi := "3.0.0", info := none,
    components := { securitySchemes := [], schemas := [] },
    servers := [], tags := [], paths := none }

def inputExplicitA : Input :=
  { swaggerProbe := "2.0", openapiProbe := "", parseA := .ok s2DocEmpty,
    parseB := .error "not openapi 3" }

def inputAmbiguousA : Input :=
  { swaggerProbe := "", openapiProbe := "", parseA := .ok s2DocEmpty,
    parseB := .ok oa3DocEmpty }

def inputAmbiguousB : Input :=
  { swaggerProbe := "", openapiProbe := "", parseA := .error "bad swagger",
    parseB := .ok oa3DocEmpty }

def inputUnparsable : Input :=
  { swaggerProbe := "1.2", openapiProbe := "4.0", parseA := .error "bad swagger",
    parseB := .error "bad openapi" }

/-- C2 witness: the four dispatch outcomes at concrete inputs; in the
ambiguous case dialect A wins even though dialect B would also parse. -/
theorem C2_witness :
    toMarkdown inputExplicitA = swagger2ToMarkdown inputExplicitA
  ∧ toMarkdown inputAmbiguousA = (swagger2Render s2DocEmpty, none)
  ∧ toMarkdown inputAmbiguousB = (openAPI3Render oa3DocEmpty, none)
  ∧ toMarkdown inputUnparsable =
      ("", some ("could not detect or parse OpenAPI version (swagger=\"1.2\", openapi=\"4.0\")")) := by
  refine ⟨?_, ?_, ?_, ?_⟩
  · exact C2_dispatcher.1 inputExplicitA (by decide)
  · exact C2_dispatcher.2.2.1 inputAmbiguousA s2DocEmpty (by decide) (by decide) rfl
  · exact C2_dispatcher.2.2.2.1 inputAmbiguousB "bad swagger" oa3DocEmpty
      (by decide) (by decide) rfl rfl
  · exact (C2_dispatcher.2.2.2.2 inputUnparsable "bad swagger" "bad openapi"
      (by decide) (by decide) rfl rfl).trans (by decide)

/-- C8: each dialect adapter, and the dispatcher, returns either a complete
render with no error or an error with the empty string as output — never
partial output alongside an error (the catch-all recover guard of each
adapter is modelled by the totality of the embedded walk). -/
theorem C8_no_partial_output :
    ∀ i : Input,
      ((∃ d, i.parseA = .ok d ∧ swagger2ToMarkdown i = (swagger2Render d, none)) ∨
        ((swagger2ToMarkdown i).1 = "" ∧ (swagger2ToMarkdown i).2.isSome))
    ∧ ((∃ d, i.parseB = .ok d ∧ openAPI3ToMarkdown i = (openAPI3Render d, none)) ∨
        ((openAPI3ToMarkdown i).1 = "" ∧ (openAPI3ToMarkdown i).2.isSome))
    ∧ ((toMarkdown i).2 = none ∨ (toMarkdown i).1 = "") := by
  intro i
  refine ⟨?_, ?_, ?_⟩
  · rcases h : i.parseA with e | d
    · right
      simp [swagger2ToMarkdown, h]
    · left
      exact ⟨d, rfl, by simp [swagger2ToMarkdown, h]⟩
  · rcases h : i.parseB with e | d
    · right
      simp [openAPI3ToMarkdown, h]
    · left
      exact ⟨d, rfl, by simp [openAPI3ToMarkdown, h]⟩
  · unfold toMarkdown
    split
    · rcases h : i.parseA with e | d <;> simp [swagger2ToMarkdown, h]
    · split
      · rcases h : i.parseB with e | d <;> simp [openAPI3ToMarkdown, h]
      · rcases hA : swagger2ToMarkdown i with ⟨mdA, eA⟩
        rcases eA with _ | eA
        · simp
        · rcases hB : openAPI3ToMarkdown i with ⟨mdB, eB⟩
          rcases eB with _ | eB
          · simp
          · simp

theorem isEmpty_eq_of_perm {α : Type} {l l' : List α} (h : l.Perm l') :
    l.isEmpty = l'.isEmpty := by
  cases l with
  | nil =>
    cases l' with
    | nil => rfl
    | cons b u => exact absurd h.length_eq (by simp)
  | cons a t =>
    cases l' with
    | nil => exact absurd h.length_eq (by simp)
    | cons b u => rfl

theorem swagger2Render_defs_perm (s : SwaggerDoc) (defs' : List (String × S2Schema))
    (hp : s.definitions.Perm defs') (hnd : (s.definitions.map Prod.fst).Nodup) :
    swagger2Render { s with definitions := defs' } = swagger2Render s := by
  have hempty : defs'.isEmpty = s.definitions.isEmpty := (isEmpty_eq_of_perm hp).symm
  have hsort : sortStrings (defs'.map Prod.fst) = sortStrings (s.definitions.map Prod.fst) :=
    sortStrings_eq_of_perm (hp.map Prod.fst).symm
  have hf :
      (fun name =>
        match lookupKey name defs' with
        | none => ([] : List String)
        | some sch => s2SchemaEntryWrites name sch) =
      (fun name =>
        match lookupKey name s.definitions with
        | none => ([] : List String)
        | some sch => s2SchemaEntryWrites name sch) := by
    funext name
    rw [← lookupKey_eq_of_perm hp hnd name]
  have hrefs : s2AllRefs { s with definitions := defs' } = s2AllRefs s := rfl
  simp only [swagger2Render, swagger2Writes]
  rw [hrefs, hempty, hsort, hf]

theorem openAPI3Render_components_perm (doc : OA3Doc)
    (secs' : List (String × Option OA3SecurityScheme))
    (schemas' : List (String × OA3SchemaRef))
    (hps : doc.components.securitySchemes.Perm secs')
    (hnds : (doc.components.securitySchemes.map Prod.fst).Nodup)
    (hpm : doc.components.schemas.Perm schemas')
    (hndm : (doc.components.schemas.map Prod.fst).Nodup) :
    openAPI3Render { doc with components := { securitySchemes := secs', schemas := schemas' } }
      = openAPI3Render doc := by
  have hemptyS : secs'.isEmpty = doc.components.securitySchemes.isEmpty :=
    (isEmpty_eq_of_perm hps).symm
  have hsortS : sortStrings (secs'.map Prod.fst)
      = sortStrings (doc.components.securitySchemes.map Prod.fst) :=
    sortStrings_eq_of_perm (hps.map Prod.fst).symm
  have hfS :
      (fun name =>
        match lookupKey name secs' with
        | some (some ss) => [oa3AuthLineChunk name ss]
        | _ => ([] : List String)) =
      (fun name =>
        match lookupKey name doc.components.securitySchemes with
        | some (some ss) => [oa3AuthLineChunk name ss]
        | _ => ([] : List String)) := by
    funext name
    rw [← lookupKey_eq_of_perm hps hnds name]
  have hemptyM : schemas'.isEmpty = doc.components.schemas.isEmpty :=
    (isEmpty_eq_of_perm hpm).symm
  have hsortM : sortStrings (schemas'.map Prod.fst)
      = sortStrings (doc.components.schemas.map Prod.fst) :=
    sortStrings_eq_of_perm (hpm.map Prod.fst).symm
  have hfM :
      (fun name =>
        match lookupKey name schemas' with
        | none => ([] : List String)
        | some ref => oa3SchemaEntryWrites name ref) =
      (fun name =>
        match lookupKey name doc.components.schemas with
        | none => ([] : List String)
        | some ref => oa3SchemaEntryWrites name ref) := by
    funext name
    rw [← lookupKey_eq_of_perm hpm hndm name]
  simp only [openAPI3Render, openAPI3Writes]
  rw [hemptyS, hsortS, hfS, hemptyM, hsortM, hfM]

def s2SecApiKey : S2SecurityScheme :=
  { type := "apiKey", name := "k", inLoc := "header", authorizationURL := "",
    tokenURL := "", scopes := [] }

def s2SecBasic : S2SecurityScheme :=
  { type := "basic", name := "", inLoc := "", authorizationURL := "",
    tokenURL := "", scopes := [("read", "r"), ("admin", "")] }

def s2DocSecAB : SwaggerDoc :=
  { s2DocEmpty with securityDefinitions := [("a", s2SecApiKey), ("b", s2SecBasic)] }

def s2DocSecBA : SwaggerDoc :=
  { s2DocEmpty with securityDefinitions := [("b", s2SecBasic), ("a", s2SecApiKey)] }

/-- C1 counterexample: the dialect-A adapter emits the Authentication lines
in the security-definitions map's iteration order without sorting, so two
iteration orders of the same map yield different bytes — rendering is not
independent of map order, contradicting the claim for dialect A. -/
theorem C1_counterexample :
    s2DocSecBA = { s2DocSecAB with securityDefinitions := s2DocSecBA.securityDefinitions }
  ∧ s2DocSecAB.securityDefinitions.Perm s2DocSecBA.securityDefinitions
  ∧ (s2DocSecAB.securityDefinitions.map Prod.fst).Nodup
  ∧ swagger2Render s2DocSecAB ≠ swagger2Render s2DocSecBA := by
  refine ⟨rfl, ?_, by decide, by decide⟩
  exact List.Perm.swap ("b", s2SecBasic) ("a", s2SecApiKey) []

/-- C1 amended: the dialect-B adapter emits its map-derived orderings fully
sorted (rendering is invariant under reordering of the security-scheme and
schema maps), and the dialect-A adapter sorts all map-derived orderings
except the security-definitions iteration of the Authentication section and
the per-operation response-status iteration of the Examples index; in
particular dialect-A rendering is invariant under reordering of the
definitions map. -/
theorem C1_map_order_invariance :
    (∀ (s : SwaggerDoc) (defs' : List (String × S2Schema)),
       s.definitions.Perm defs' → (s.definitions.map Prod.fst).Nodup →
       swagger2Render { s with definitions := defs' } = swagger2Render s)
  ∧ (∀ (doc : OA3Doc) (secs' : List (String × Option OA3SecurityScheme))
       (schemas' : List (String × OA3SchemaRef)),
       doc.components.securitySchemes.Perm secs' →
       (doc.components.securitySchemes.map Prod.fst).Nodup →
       doc.components.schemas.Perm schemas' →
       (doc.components.schemas.map Prod.fst).Nodup →
       openAPI3Render
           { doc with components := { securitySchemes := secs', schemas := schemas' } }
         = openAPI3Render doc) :=
  ⟨swagger2Render_defs_perm, openAPI3Render_components_perm⟩

def s2DocDefsAB : SwaggerDoc :=
  { s2DocEmpty with definitions := [("A", s2PetItem), ("B", s2EmptySchema)] }

def oa3SecBearer : OA3SecurityScheme :=
  { type := "http", scheme := "bearer", name := "", inLoc := "" }

def oa3DocComps : OA3Doc :=
  { oa3DocEmpty with components :=
      { securitySchemes := [("a", some oa3SecBearer), ("b", none)],
        schemas := [("S", oa3EmptyRef), ("T", oa3ArrayOfPetRef)] } }

/-- C1 witness: the invariances applied at concrete two-entry maps. -/
theorem C1_witness :
    swagger2Render { s2DocDefsAB with definitions := [("B", s2EmptySchema), ("A", s2PetItem)] }
      = swagger2Render s2DocDefsAB
  ∧ openAPI3Render
        { oa3DocComps with components :=
            { securitySchemes := [("b", none), ("a", some oa3SecBearer)],
              schemas := [("T", oa3ArrayOfPetRef), ("S", oa3EmptyRef)] } }
      = openAPI3Render oa3DocComps := by
  constructor
  · exact C1_map_order_invariance.1 s2DocDefsAB _
      (List.Perm.swap ("B", s2EmptySchema) ("A", s2PetItem) []) (by decide)
  · exact C1_map_order_invariance.2 oa3DocComps _ _
      (List.Perm.swap ("b", none) ("a", some oa3SecBearer) []) (by decide)
      (List.Perm.swap ("T", oa3ArrayOfPetRef) ("S", oa3EmptyRef) []) (by decide)

def oa3ParamIdPath : OA3Parameter :=
  { inLoc := "path", name := "id", description := "", required := true, schema := none }

def oa3ParamIdOp : OA3Parameter :=
  { inLoc := "path", name := "id", description := "op level", required := true, schema := none }

def oa3PiDup : OA3PathItem :=
  { get := none, put := none, post := none, delete := none, options := none,
    head := none, patch := none, trace := none, parameters := [some oa3ParamIdPath] }

def oa3OpDup : OA3Operation :=
  { tags := [], summary := "", description := "", parameters := [some oa3ParamIdOp],
    requestBody := none, responses := none }

/-- C4 counterexample: an operation-level parameter with the same name and
location as a path-level one does not shadow it — both lines are rendered,
so the `(name, location)` pair `(id, path)` is listed twice. -/
theorem C4_counterexample :
    ("- path `id` (-) (required)\n")
      ∈ writeOpenAPI3Operation "GET" "/pets/{id}" oa3PiDup oa3OpDup
  ∧ ("- path `id` (-) (required) — op level\n")
      ∈ writeOpenAPI3Operation "GET" "/pets/{id}" oa3PiDup oa3OpDup
  ∧ (writeOpenAPI3Operation "GET" "/pets/{id}" oa3PiDup oa3OpDup).countP
      (fun w => strHasPrefix w "- path `id` ") = 2 := by
  refine ⟨?_, ?_, ?_⟩ <;> decide

/-- C4 amended: the rendered parameter list is the flattened concatenation
of path-level then operation-level parameters with no de-duplication — every
(renderable) entry of both lists is emitted in order, and a parameter
declared identically at both levels is listed at least twice. -/
theorem C4_flatten_without_dedup :
    (∀ (method path : String) (pi : OA3PathItem) (op : OA3Operation),
       (pi.parameters ++ op.parameters).isEmpty = false →
       ("**Parameters**\n" :: (pi.parameters ++ op.parameters).filterMap oa3ParamLineChunk)
         <:+: writeOpenAPI3Operation method path pi op)
  ∧ (∀ (method path : String) (pi : OA3PathItem) (op : OA3Operation) (par : OA3Parameter)
       (line : String),
       some par ∈ pi.parameters → some par ∈ op.parameters →
       oa3ParamLineChunk (some par) = some line →
       2 ≤ (writeOpenAPI3Operation method path pi op).count line) := by
  have hinf : ∀ (method path : String) (pi : OA3PathItem) (op : OA3Operation),
      (pi.parameters ++ op.parameters).isEmpty = false →
      ("**Parameters**\n" :: (pi.parameters ++ op.parameters).filterMap oa3ParamLineChunk)
        <:+: writeOpenAPI3Operation method path pi op := by
    intro method path pi op h
    simp only [writeOpenAPI3Operation, h]
    simpa [List.append_assoc] using
      List.infix_append
        (["\n#### " ++ method ++ " " ++ path ++ "\n"]
          ++ (if op.summary ≠ "" then [op.summary ++ "\n\n"] else [])
          ++ (if op.description ≠ "" then [op.description ++ "\n\n"] else []))
        ("**Parameters**\n" :: (pi.parameters ++ op.parameters).filterMap oa3ParamLineChunk)
        ((match op.requestBody with
          | none => []
          | some rb =>
            if !rb.content.isEmpty then
              "\n**Request Body**\n"
              :: (sortStrings (rb.content.map Prod.fst)).flatMap (fun mt =>
                   match lookupKey mt rb.content with
                   | none => []
                   | some media => oa3RequestMediaWrites mt media)
            else [])
         ++ (match op.responses with
             | none => []
             | some rs =>
               if !rs.isEmpty then
                 "\n**Responses**\n"
                 :: (sortStrings (rs.map Prod.fst)).flatMap (fun code =>
                      match lookupKey code rs with
                      | some (some r) => oa3RespWrites code r
                      | _ => [])
               else []))
  refine ⟨hinf, ?_⟩
  intro method path pi op par line h1 h2 h3
  have hne : (pi.parameters ++ op.parameters).isEmpty = false := by
    have h0 : pi.parameters ++ op.parameters ≠ [] := by
      intro hc
      rcases List.append_eq_nil.mp hc with ⟨hA, _⟩
      exact (List.ne_nil_of_mem h1) hA
    cases hl : (pi.parameters ++ op.parameters) with
    | nil => exact absurd hl h0
    | cons a t => rfl
  have hsub := (hinf method path pi op hne).sublist
  have hcl := hsub.count_le line
  have hmem1 : line ∈ pi.parameters.filterMap oa3ParamLineChunk :=
    List.mem_filterMap.mpr ⟨some par, h1, h3⟩
  have hmem2 : line ∈ op.parameters.filterMap oa3ParamLineChunk :=
    List.mem_filterMap.mpr ⟨some par, h2, h3⟩
  have hc1 : 1 ≤ (pi.parameters.filterMap oa3ParamLineChunk).count line :=
    List.count_pos_iff.mpr hmem1
  have hc2 : 1 ≤ (op.parameters.filterMap oa3ParamLineChunk).count line :=
    List.count_pos_iff.mpr hmem2
  have hL : 2 ≤ ((pi.parameters ++ op.parameters).filterMap oa3ParamLineChunk).count line := by
    rw [List.filterMap_append, List.count_append]
    omega
  have hmid : 2 ≤ (("**Parameters**\n"
      :: (pi.parameters ++ op.parameters).filterMap oa3ParamLineChunk)).count line := by
    rw [List.count_cons]
    omega
  omega

/-- C4 witness: the amended statement at the concrete duplicated parameter. -/
theorem C4_witness :
    ("**Parameters**\n" :: (oa3PiDup.parameters ++ oa3OpDup.parameters).filterMap oa3ParamLineChunk)
      <:+: writeOpenAPI3Operation "GET" "/pets/{id}" oa3PiDup oa3OpDup := by
  exact C4_flatten_without_dedup.1 "GET" "/pets/{id}" oa3PiDup oa3OpDup (by decide)

theorem mem_writeExampleFence_head (label mt v : String) :
    ("\n**" ++ label ++ "**\n") ∈ writeExampleFence label mt v := by
  simp [writeExampleFence]

theorem oa3ResponseMediaWrites_named_mem (code mt : String) (media : OA3MediaType)
    (name v : String) (hnd : (media.examples.map Prod.fst).Nodup)
    (hm : (name, some v) ∈ media.examples) :
    ("\n**" ++ ("Response example (" ++ name ++ ", " ++ code ++ ", " ++ mt ++ ")") ++ "**\n")
      ∈ oa3ResponseMediaWrites code mt media := by
  unfold oa3ResponseMediaWrites
  refine List.mem_cons.mpr (Or.inr ?_)
  refine List.mem_append.mpr (Or.inr ?_)
  have hne : media.examples.isEmpty = false := by
    cases hl : media.examples with
    | nil => rw [hl] at hm; cases hm
    | cons a t => rfl
  rw [hne]
  simp only [Bool.not_false, if_pos]
  refine List.mem_flatMap.mpr ⟨name, ?_, ?_⟩
  · exact mem_sortStrings.mpr (List.mem_map.mpr ⟨(name, some v), hm, rfl⟩)
  · rw [lookupKey_eq_of_mem hnd hm]
    exact mem_writeExampleFence_head _ _ _

theorem oa3ResponseMediaWrites_anon_mem (code mt : String) (media : OA3MediaType)
    (v : String) (hm : media.exampleVal = some v) :
    ("\n**" ++ ("Response example (" ++ code ++ ", " ++ mt ++ ")") ++ "**\n")
      ∈ oa3ResponseMediaWrites code mt media := by
  unfold oa3ResponseMediaWrites
  refine List.mem_cons.mpr (Or.inr ?_)
  refine List.mem_append.mpr (Or.inl ?_)
  rw [hm]
  simpa using
    mem_writeExampleFence_head ("Response example (" ++ code ++ ", " ++ mt ++ ")") mt v

theorem oa3RespWrites_mem_of_media (code : String) (r : OA3Response) (mt : String)
    (media : OA3MediaType) (chunk : String)
    (hnd : (r.content.map Prod.fst).Nodup) (hm : (mt, media) ∈ r.content)
    (hc : chunk ∈ oa3ResponseMediaWrites code mt media) :
    chunk ∈ oa3RespWrites code r := by
  unfold oa3RespWrites
  refine List.mem_cons.mpr (Or.inr ?_)
  have hne : r.content.isEmpty = false := by
    cases hl : r.content with
    | nil => rw [hl] at hm; cases hm
    | cons a t => rfl
  rw [hne]
  simp only [Bool.not_false, if_pos]
  refine List.mem_flatMap.mpr ⟨mt, ?_, ?_⟩
  · exact mem_sortStrings.mpr (List.mem_map.mpr ⟨(mt, media), hm, rfl⟩)
  · rw [lookupKey_eq_of_mem hnd hm]
    exact hc

theorem writeOpenAPI3Operation_mem_of_resp (method path : String) (pi : OA3PathItem)
    (op : OA3Operation) (rs : List (String × Option OA3Response)) (code : String)
    (r : OA3Response) (chunk : String)
    (hrs : op.responses = some rs) (hnd : (rs.map Prod.fst).Nodup)
    (hm : (code, some r) ∈ rs) (hc : chunk ∈ oa3RespWrites code r) :
    chunk ∈ writeOpenAPI3Operation method path pi op := by
  unfold writeOpenAPI3Operation
  refine List.mem_append.mpr (Or.inr ?_)
  simp only [hrs]
  have hne : rs.isEmpty = false := by
    cases hl : rs with
    | nil => rw [hl] at hm; cases hm
    | cons a t => rfl
  rw [hne]
  simp only [Bool.not_false, if_pos]
  refine List.mem_cons.mpr (Or.inr ?_)
  refine List.mem_flatMap.mpr ⟨code, ?_, ?_⟩
  · exact mem_sortStrings.mpr (List.mem_map.mpr ⟨(code, some r), hm, rfl⟩)
  · rw [lookupKey_eq_of_mem hnd hm]
    exact hc

/-- C7: every named response example of a dialect-B operation renders the
label `Response example (<name>, <status>, <media-type>)` exactly, and every
anonymous one the label `Response example (<status>, <media-type>)`. -/
theorem C7_response_example_labels :
    (∀ (method path : String) (pi : OA3PathItem) (op : OA3Operation)
       (rs : List (String × Option OA3Response)) (code : String) (r : OA3Response)
       (mt : String) (media : OA3MediaType) (name v : String),
       op.responses = some rs → (rs.map Prod.fst).Nodup → (code, some r) ∈ rs →
       (r.content.map Prod.fst).Nodup → (mt, media) ∈ r.content →
       (media.examples.map Prod.fst).Nodup → (name, some v) ∈ media.examples →
       ("\n**" ++ ("Response example (" ++ name ++ ", " ++ code ++ ", " ++ mt ++ ")") ++ "**\n")
         ∈ writeOpenAPI3Operation method path pi op)
  ∧ (∀ (method path : String) (pi : OA3PathItem) (op : OA3Operation)
       (rs : List (String × Option OA3Response)) (code : String) (r : OA3Response)
       (mt : String) (media : OA3MediaType) (v : String),
       op.responses = some rs → (rs.map Prod.fst).Nodup → (code, some r) ∈ rs →
       (r.content.map Prod.fst).Nodup → (mt, media) ∈ r.content →
       media.exampleVal = some v →
       ("\n**" ++ ("Response example (" ++ code ++ ", " ++ mt ++ ")") ++ "**\n")
         ∈ writeOpenAPI3Operation method path pi op) := by
  constructor
  · intro method path pi op rs code r mt media name v hrs hnd1 hm1 hnd2 hm2 hnd3 hm3
    exact writeOpenAPI3Operation_mem_of_resp method path pi op rs code r _ hrs hnd1 hm1
      (oa3RespWrites_mem_of_media code r mt media _ hnd2 hm2
        (oa3ResponseMediaWrites_named_mem code mt media name v hnd3 hm3))
  · intro method path pi op rs code r mt media v hrs hnd1 hm1 hnd2 hm2 hm3
    exact writeOpenAPI3Operation_mem_of_resp method path pi op rs code r _ hrs hnd1 hm1
      (oa3RespWrites_mem_of_media code r mt media _ hnd2 hm2
        (oa3ResponseMediaWrites_anon_mem code mt media v hm3))

def oa3MediaAlt : OA3MediaType :=
  { schema := none, exampleVal := some "\x7b\x7d",
    examples := [("alt", some "\x7b\"id\": 1\x7d")] }

def oa3Resp200 : OA3Response :=
  { description := some "OK", content := [("application/json", oa3MediaAlt)] }

def oa3OpAlt : OA3Operation :=
  { tags := [], summary := "", description := "", parameters := [],
    requestBody := none, responses := some [("200", some oa3Resp200)] }

def oa3PiAlt : OA3PathItem :=
  { get := some oa3OpAlt, put := none, post := none, delete := none, options := none,
    head := none, patch := none, trace := none, parameters := [] }

/-- C7 witness: a response example named `alt` for status `200` and media
type `application/json` renders the label
`Response example (alt, 200, application/json)` exactly. -/
theorem C7_witness :
    ("\n**Response example (alt, 200, application/json)**\n")
      ∈ writeOpenAPI3Operation "GET" "/pets" oa3PiAlt oa3OpAlt
  ∧ ("\n**Response example (200, application/json)**\n")
      ∈ writeOpenAPI3Operation "GET" "/pets" oa3PiAlt oa3OpAlt := by
  constructor
  · exact C7_response_example_labels.1 "GET" "/pets" oa3PiAlt oa3OpAlt
      [("200", some oa3Resp200)] "200" oa3Resp200 "application/json" oa3MediaAlt
      "alt" "\x7b\"id\": 1\x7d" rfl (by decide) (List.mem_singleton.mpr rfl) (by decide)
      (List.mem_singleton.mpr rfl) (by decide) (List.mem_singleton.mpr rfl)
  · exact C7_response_example_labels.2 "GET" "/pets" oa3PiAlt oa3OpAlt
      [("200", some oa3Resp200)] "200" oa3Resp200 "application/json" oa3MediaAlt
      "\x7b\x7d" rfl (by decide) (List.mem_singleton.mpr rfl) (by decide)
      (List.mem_singleton.mpr rfl) rfl

theorem bucketVal_nil {α : Type} (t : String) : bucketVal t ([] : List (String × List α)) = [] :=
  rfl

theorem bucketVal_upsert {α : Type} (t tg : String) (r : α)
    (m : List (String × List α)) :
    bucketVal t (upsertTag tg r m)
      = if tg = t then bucketVal t m ++ [r] else bucketVal t m := by
  induction m with
  | nil =>
    by_cases h : tg = t
    · subst h
      simp [upsertTag, bucketVal, lookupKey]
    · simp [upsertTag, bucketVal, lookupKey, h, Ne.symm h]
  | cons kv rest ih =>
    rcases kv with ⟨k, v⟩
    by_cases hk : k = tg
    · subst hk
      by_cases ht : k = t
      · subst ht
        simp [upsertTag, bucketVal, lookupKey]
      · simp [upsertTag, bucketVal, lookupKey, ht, Ne.symm (fun h => ht h.symm)]
    · by_cases ht : k = t
      · subst ht
        have htg : ¬ tg = k := fun h => hk h.symm
        simp [upsertTag, bucketVal, lookupKey, hk, htg]
      · simp [upsertTag, bucketVal, lookupKey, hk, ht] at ih ⊢
        exact ih

theorem bucketVal_foldl_upsert {α : Type} (t : String) (r : α) (ts : List String) :
    ∀ m : List (String × List α),
      bucketVal t (ts.foldl (fun acc tg => upsertTag tg r acc) m)
        = bucketVal t m ++ List.replicate (ts.count t) r := by
  induction ts with
  | nil => intro m; simp
  | cons tg ts' ih =>
    intro m
    rw [List.foldl_cons, ih (upsertTag tg r m), bucketVal_upsert]
    by_cases h : tg = t
    · subst h
      simp [List.count_cons, List.replicate_succ, List.append_assoc]
    · simp [List.count_cons, h]

theorem bucketize_characterization {α : Type} (tagsOf : α → List String) (refs : List α) :
    ∀ init : List (String × List α) × List α,
      (refs.foldl (bucketizeStep tagsOf) init).2
          = init.2 ++ refs.filter (fun r => (tagsOf r).isEmpty)
      ∧ ∀ t, bucketVal t (refs.foldl (bucketizeStep tagsOf) init).1
          = bucketVal t init.1
            ++ refs.flatMap (fun r => List.replicate ((tagsOf r).count t) r) := by
  induction refs with
  | nil => intro init; simp
  | cons r rest ih =>
    intro init
    rw [List.foldl_cons]
    rcases hts : tagsOf r with _ | ⟨t0, ts0⟩
    · have hstep : bucketizeStep tagsOf init r = (init.1, init.2 ++ [r]) := by
        simp [bucketizeStep, hts]
      rw [hstep]
      constructor
      · rw [(ih (init.1, init.2 ++ [r])).1]
        simp [List.filter_cons, hts]
      · intro t
        rw [(ih (init.1, init.2 ++ [r])).2 t]
        simp [List.flatMap_cons, hts]
    · have hstep : bucketizeStep tagsOf init r
          = ((t0 :: ts0).foldl (fun m tg => upsertTag tg r m) init.1, init.2) := by
        simp [bucketizeStep, hts]
      rw [hstep]
      constructor
      · rw [(ih _).1]
        simp [List.filter_cons, hts]
      · intro t
        rw [(ih _).2 t]
        rw [bucketVal_foldl_upsert]
        simp [List.flatMap_cons, hts, List.append_assoc]

theorem bucketize_untagged {α : Type} (tagsOf : α → List String) (refs : List α) :
    (bucketize tagsOf refs).2 = refs.filter (fun r => (tagsOf r).isEmpty) := by
  have := (bucketize_characterization tagsOf refs ([], [])).1
  simpa [bucketize] using this

theorem bucketize_bucketVal {α : Type} (tagsOf : α → List String) (refs : List α) (t : String) :
    bucketVal t (bucketize tagsOf refs).1
      = refs.flatMap (fun r => List.replicate ((tagsOf r).count t) r) := by
  have := (bucketize_characterization tagsOf refs ([], [])).2 t
  simpa [bucketize] using this

theorem slots_filterMap_filter {τ α : Type} (P : α → Bool) (g : String → τ → α)
    (m : String) (op : τ) (hPg : ∀ k v, P (g k v) = decide (k = m)) :
    ∀ slots : List (String × Option τ), (slots.map Prod.fst).Nodup →
      (m, some op) ∈ slots →
      ((slots.filterMap (fun ms => ms.2.map (g ms.1))).filter P) = [g m op] := by
  intro slots
  induction slots with
  | nil => intro _ hm; cases hm
  | cons kv rest ih =>
    rcases kv with ⟨k, o⟩
    intro hnd hm
    have hndk : k ∉ rest.map Prod.fst := by
      rw [List.map_cons] at hnd
      exact (List.nodup_cons.mp hnd).1
    have hndr : (rest.map Prod.fst).Nodup := by
      rw [List.map_cons] at hnd
      exact (List.nodup_cons.mp hnd).2
    rcases o with _ | v
    · have hmr : (m, some op) ∈ rest := by
        rcases List.mem_cons.mp hm with h | h
        · cases h
        · exact h
      have hstep : List.filterMap (fun ms => Option.map (g ms.1) ms.2) ((k, none) :: rest)
          = List.filterMap (fun ms => Option.map (g ms.1) ms.2) rest :=
        List.filterMap_cons_none rfl
      rw [hstep]
      exact ih hndr hmr
    · have hstep : List.filterMap (fun ms => Option.map (g ms.1) ms.2) ((k, some v) :: rest)
          = g k v :: List.filterMap (fun ms => Option.map (g ms.1) ms.2) rest :=
        List.filterMap_cons_some rfl
      rw [hstep]
      by_cases hk : k = m
      · have hv : v = op := by
          rcases List.mem_cons.mp hm with h | h
          · have h2 := congrArg Prod.snd h
            exact (Option.some.inj h2).symm
          · exfalso
            apply hndk
            rw [hk]
            exact List.mem_map.mpr ⟨(m, some op), h, rfl⟩
        have hrest : (rest.filterMap (fun ms => Option.map (g ms.1) ms.2)).filter P = [] := by
          rw [List.filter_eq_nil_iff]
          intro a ha
          rcases List.mem_filterMap.mp ha with ⟨ms, hms, hval⟩
          rcases hov : ms.2 with _ | vv
          · rw [hov] at hval; cases hval
          · rw [hov] at hval
            have hav : a = g ms.1 vv := by
              simpa using hval.symm
            rw [hav, hPg]
            have hne : ms.1 ≠ m := by
              intro hc
              apply hndk
              rw [hk, ← hc]
              exact List.mem_map.mpr ⟨ms, hms, rfl⟩
            simp [hne]
        rw [List.filter_cons, hPg k v]
        simp [hk, hv, hrest]
      · have hmr : (m, some op) ∈ rest := by
          rcases List.mem_cons.mp hm with h | h
          · exfalso
            exact hk (congrArg Prod.fst h).symm
          · exact h
        rw [List.filter_cons, hPg k v]
        simp only [hk, decide_eq_true_eq, if_neg]
        exact ih hndr hmr

theorem flatMap_eq_single {β : Type} (p : String) (res : List β) (f : String → List β) :
    ∀ l : List String, l.count p = 1 → (∀ q ∈ l, q ≠ p → f q = []) → f p = res →
      l.flatMap f = res := by
  intro l
  induction l with
  | nil => intro hc; simp at hc
  | cons a rest ih =>
    intro hc hothers hp
    rw [List.flatMap_cons]
    by_cases ha : a = p
    · subst ha
      have hc0 : rest.count a = 0 := by
        rw [List.count_cons_self] at hc
        omega
      have hrest : rest.flatMap f = [] := by
        rw [List.flatMap_eq_nil_iff]
        intro q hq
        by_cases hqa : q = a
        · subst hqa
          exact absurd (List.count_pos_iff.mpr hq) (by omega)
        · exact hothers q (List.mem_cons_of_mem _ hq) hqa
      rw [hrest, hp, List.append_nil]
    · have hfa : f a = [] := hothers a (List.mem_cons_self _ _) ha
      rw [hfa, List.nil_append]
      have hc' : rest.count p = 1 := by
        rw [List.count_cons_of_ne (Ne.symm ha)] at hc
        exact hc
      exact ih hc' (fun q hq => hothers q (List.mem_cons_of_mem _ hq)) hp

theorem countP_flatMap_replicate {α : Type} (P : α → Bool) (c : α → Nat) :
    ∀ l : List α,
      List.countP P (l.flatMap fun r => List.replicate (c r) r)
        = ((l.filter P).map c).sum := by
  intro l
  induction l with
  | nil => simp
  | cons a rest ih =>
    rw [List.flatMap_cons, List.countP_append, List.countP_replicate, List.filter_cons]
    by_cases h : P a
    · simp [h, ih]
    · simp [h, ih]

theorem s2SlotRefs_path (q : String) (pi : S2PathItem) :
    ∀ r ∈ s2SlotRefs q pi, r.path = q := by
  intro r hr
  rcases List.mem_filterMap.mp hr with ⟨ms, _, hval⟩
  rcases hov : ms.2 with _ | op
  · rw [hov] at hval; cases hval
  · rw [hov] at hval
    have hr2 : r = S2OpRef.mk ms.1 q op := by simpa using hval.symm
    rw [hr2]

theorem s2AllRefs_filter (s : SwaggerDoc) (p m : String) (pi : S2PathItem) (op : S2Operation)
    (hnd : (s.paths.map Prod.fst).Nodup) (hmem : (p, pi) ∈ s.paths)
    (hslot : (m, some op) ∈ s2Slots pi) :
    (s2AllRefs s).filter (fun r => decide (r.method = m ∧ r.path = p))
      = [S2OpRef.mk m p op] := by
  unfold s2AllRefs
  rw [List.filter_flatMap]
  apply flatMap_eq_single
  · rw [(sortStrings_perm _).count_eq]
    exact List.count_eq_one_of_mem hnd (List.mem_map.mpr ⟨(p, pi), hmem, rfl⟩)
  · intro q hq hne
    rw [List.filter_eq_nil_iff]
    intro r hr
    rcases hlk : lookupKey q s.paths with _ | pi'
    · rw [hlk] at hr
      simp at hr
    · rw [hlk] at hr
      simp only [Option.map, Option.getD_some] at hr
      have hpath := s2SlotRefs_path q pi' r hr
      simp [hpath, hne]
  · rw [lookupKey_eq_of_mem hnd hmem]
    simp only [Option.map_some, Option.getD_some]
    have hndslots : ((s2Slots pi).map Prod.fst).Nodup := by
      have hkeys : (s2Slots pi).map Prod.fst
          = ["GET", "POST", "PUT", "DELETE", "PATCH", "OPTIONS", "HEAD"] := rfl
      rw [hkeys]
      decide
    exact slots_filterMap_filter _ (fun k v => S2OpRef.mk k p v) m op
      (fun k v => by simp) (s2Slots pi) hndslots hslot

theorem oa3SlotRefs_path (q : String) (pi : OA3PathItem) :
    ∀ r ∈ oa3SlotRefs q pi, r.path = q := by
  intro r hr
  rcases List.mem_filterMap.mp hr with ⟨ms, _, hval⟩
  rcases hov : ms.2 with _ | op
  · rw [hov] at hval; cases hval
  · rw [hov] at hval
    have hr2 : r = OA3OpRef.mk ms.1 q pi op := by simpa using hval.symm
    rw [hr2]

theorem oa3AllRefs_filter (pm : List (String × OA3PathItem)) (p m : String)
    (pi : OA3PathItem) (op : OA3Operation)
    (hnd : (pm.map Prod.fst).Nodup) (hmem : (p, pi) ∈ pm)
    (hslot : (m, some op) ∈ oa3Slots pi) :
    (oa3AllRefs pm).filter (fun r => decide (r.method = m ∧ r.path = p))
      = [OA3OpRef.mk m p pi op] := by
  unfold oa3AllRefs
  rw [List.filter_flatMap]
  apply flatMap_eq_single
  · rw [(sortStrings_perm _).count_eq]
    exact List.count_eq_one_of_mem hnd (List.mem_map.mpr ⟨(p, pi), hmem, rfl⟩)
  · intro q hq hne
    rw [List.filter_eq_nil_iff]
    intro r hr
    rcases hlk : lookupKey q pm with _ | pi'
    · rw [hlk] at hr
      simp at hr
    · rw [hlk] at hr
      simp only [Option.map, Option.getD_some] at hr
      have hpath := oa3SlotRefs_path q pi' r hr
      simp [hpath, hne]
  · rw [lookupKey_eq_of_mem hnd hmem]
    simp only [Option.map_some, Option.getD_some]
    have hndslots : ((oa3Slots pi).map Prod.fst).Nodup := by
      have hkeys : (oa3Slots pi).map Prod.fst
          = ["GET", "POST", "PUT", "DELETE", "PATCH", "OPTIONS", "HEAD", "TRACE"] := rfl
      rw [hkeys]
      decide
    exact slots_filterMap_filter _ (fun k v => OA3OpRef.mk k p pi v) m op
      (fun k v => by simp) (oa3Slots pi) hndslots hslot

/-- C9: an operation with no tags is bucketed exactly once, into the
untagged bucket only; an operation with tags is bucketed once per occurrence
of each of its tags (so exactly once under each of its N distinct tags) and
never into the untagged bucket.  The buckets are rendered verbatim under
`### <tag>` / `### Untagged` by both adapters. -/
theorem C9_tag_fanout :
    (∀ (s : SwaggerDoc) (p m : String) (pi : S2PathItem) (op : S2Operation),
       (s.paths.map Prod.fst).Nodup → (p, pi) ∈ s.paths → (m, some op) ∈ s2Slots pi →
       ((bucketize (fun r : S2OpRef => r.op.tags) (s2AllRefs s)).2.countP
           (fun r => decide (r.method = m ∧ r.path = p))
         = if op.tags.isEmpty then 1 else 0)
       ∧ ∀ t, ((bucketVal t (bucketize (fun r : S2OpRef => r.op.tags) (s2AllRefs s)).1).countP
           (fun r => decide (r.method = m ∧ r.path = p))
         = op.tags.count t))
  ∧ (∀ (pm : List (String × OA3PathItem)) (p m : String) (pi : OA3PathItem)
       (op : OA3Operation),
       (pm.map Prod.fst).Nodup → (p, pi) ∈ pm → (m, some op) ∈ oa3Slots pi →
       ((bucketize (fun r : OA3OpRef => r.op.tags) (oa3AllRefs pm)).2.countP
           (fun r => decide (r.method = m ∧ r.path = p))
         = if op.tags.isEmpty then 1 else 0)
       ∧ ∀ t, ((bucketVal t (bucketize (fun r : OA3OpRef => r.op.tags) (oa3AllRefs pm)).1).countP
           (fun r => decide (r.method = m ∧ r.path = p))
         = op.tags.count t)) := by
  constructor
  · intro s p m pi op hnd hmem hslot
    have hfil := s2AllRefs_filter s p m pi op hnd hmem hslot
    constructor
    · rw [bucketize_untagged, List.countP_filter]
      have hcomm :
          List.countP
              (fun r : S2OpRef =>
                decide (r.method = m ∧ r.path = p) && (r.op.tags).isEmpty)
              (s2AllRefs s)
            = List.countP
                (fun r : S2OpRef =>
                  (r.op.tags).isEmpty && decide (r.method = m ∧ r.path = p))
                (s2AllRefs s) :=
        List.countP_congr (fun x _ => by simp [Bool.and_comm])
      rw [hcomm, ← List.countP_filter, hfil]
      simp [List.countP_cons]
    · intro t
      rw [bucketize_bucketVal, countP_flatMap_replicate, hfil]
      simp
  · intro pm p m pi op hnd hmem hslot
    have hfil := oa3AllRefs_filter pm p m pi op hnd hmem hslot
    constructor
    · rw [bucketize_untagged, List.countP_filter]
      have hcomm :
          List.countP
              (fun r : OA3OpRef =>
                decide (r.method = m ∧ r.path = p) && (r.op.tags).isEmpty)
              (oa3AllRefs pm)
            = List.countP
                (fun r : OA3OpRef =>
                  (r.op.tags).isEmpty && decide (r.method = m ∧ r.path = p))
                (oa3AllRefs pm) :=
        List.countP_congr (fun x _ => by simp [Bool.and_comm])
      rw [hcomm, ← List.countP_filter, hfil]
      simp [List.countP_cons]
    · intro t
      rw [bucketize_bucketVal, countP_flatMap_replicate, hfil]
      simp

def s2OpTagged : S2Operation :=
  { tags := ["a", "b"], summary := "", description := "", id := "", produces := [],
    consumes := [], parameters := [], responses := none }

def s2OpUntagged : S2Operation :=
  { tags := [], summary := "", description := "", id := "", produces := [],
    consumes := [], parameters := [], responses := none }

def s2PiFanout : S2PathItem :=
  { get := some s2OpTagged, put := none, post := some s2OpUntagged, delete := none,
    options := none, head := none, patch := none }

def s2DocFanout : SwaggerDoc := { s2DocEmpty with paths := [("/w", s2PiFanout)] }

def oa3OpTagged : OA3Operation :=
  { tags := ["a", "b"], summary := "", description := "", parameters := [],
    requestBody := none, responses := none }

def oa3PiFanout : OA3PathItem :=
  { get := some oa3OpTagged, put := none, post := none, delete := none, options := none,
    head := none, patch := none, trace := none, parameters := [] }

/-- C9 witness: an operation tagged `{a, b}` lands once in bucket `a`, once
in bucket `b`, and not in the untagged bucket; an untagged one lands exactly
once in the untagged bucket. -/
theorem C9_witness :
    ((bucketVal "a" (bucketize (fun r : S2OpRef => r.op.tags) (s2AllRefs s2DocFanout)).1).countP
        (fun r => decide (r.method = "GET" ∧ r.path = "/w")) = 1)
  ∧ ((bucketVal "b" (bucketize (fun r : S2OpRef => r.op.tags) (s2AllRefs s2DocFanout)).1).countP
        (fun r => decide (r.method = "GET" ∧ r.path = "/w")) = 1)
  ∧ ((bucketize (fun r : S2OpRef => r.op.tags) (s2AllRefs s2DocFanout)).2.countP
        (fun r => decide (r.method = "GET" ∧ r.path = "/w")) = 0)
  ∧ ((bucketize (fun r : S2OpRef => r.op.tags) (s2AllRefs s2DocFanout)).2.countP
        (fun r => decide (r.method = "POST" ∧ r.path = "/w")) = 1)
  ∧ ((bucketVal "b" (bucketize (fun r : OA3OpRef => r.op.tags)
        (oa3AllRefs [("/w", oa3PiFanout)])).1).countP
        (fun r => decide (r.method = "GET" ∧ r.path = "/w")) = 1) := by
  refine ⟨?_, ?_, ?_, ?_, ?_⟩
  · exact ((C9_tag_fanout.1 s2DocFanout "/w" "GET" s2PiFanout s2OpTagged (by decide)
      (List.mem_singleton.mpr rfl) (List.mem_cons_self _ _)).2 "a").trans (by decide)
  · exact ((C9_tag_fanout.1 s2DocFanout "/w" "GET" s2PiFanout s2OpTagged (by decide)
      (List.mem_singleton.mpr rfl) (List.mem_cons_self _ _)).2 "b").trans (by decide)
  · exact ((C9_tag_fanout.1 s2DocFanout "/w" "GET" s2PiFanout s2OpTagged (by decide)
      (List.mem_singleton.mpr rfl) (List.mem_cons_self _ _)).1).trans (by decide)
  · exact ((C9_tag_fanout.1 s2DocFanout "/w" "POST" s2PiFanout s2OpUntagged (by decide)
      (List.mem_singleton.mpr rfl)
      (List.mem_cons.mpr (Or.inr (List.mem_cons_self _ _)))).1).trans (by decide)
  · exact ((C9_tag_fanout.2 [("/w", oa3PiFanout)] "/w" "GET" oa3PiFanout oa3OpTagged
      (by decide) (List.mem_singleton.mpr rfl) (List.mem_cons_self _ _)).2 "b").trans
      (by decide)

/-- Chunks opening a request-example block (the observation used to count
request-example fences). -/
def isReqExampleChunk (w : String) : Bool := strHasPrefix w "\n**Request example"

theorem reqChunk_dash (s : String) : isReqExampleChunk ("- " ++ s) = false := by
  simp [isReqExampleChunk, strHasPrefix, String.data_append, List.isPrefixOf]

theorem reqChunk_opHeader (a b : String) :
    isReqExampleChunk ("\n#### " ++ a ++ " " ++ b ++ "\n") = false := by
  simp [isReqExampleChunk, strHasPrefix, String.data_append, List.isPrefixOf]

theorem reqChunk_opId (s : String) :
    isReqExampleChunk ("_Operation ID_: `" ++ s ++ "`\n\n") = false := by
  simp [isReqExampleChunk, strHasPrefix, String.data_append, List.isPrefixOf]

theorem reqChunk_paramLine (prm : S2Parameter) :
    isReqExampleChunk (s2ParamLineChunk prm) = false := by
  simp [s2ParamLineChunk, isReqExampleChunk, strHasPrefix, String.data_append,
    List.isPrefixOf]

theorem reqChunk_mediaLine (mt : String) :
    isReqExampleChunk ("- " ++ mt ++ "\n") = false := by
  simp [isReqExampleChunk, strHasPrefix, String.data_append, List.isPrefixOf]

theorem reqChunk_fenceBody (v : String) :
    isReqExampleChunk ("```\n" ++ v ++ "\n" ++ "```" ++ "\n") = false := by
  simp [isReqExampleChunk, strHasPrefix, String.data_append, List.isPrefixOf]

theorem reqChunk_respLabel (c mt : String) :
    isReqExampleChunk ("\n**" ++ ("Response example (" ++ c ++ ", " ++ mt ++ ")") ++ "**\n")
      = false := by
  simp [isReqExampleChunk, strHasPrefix, String.data_append, List.isPrefixOf]

theorem reqChunk_reqLabel (mt : String) :
    isReqExampleChunk ("\n**" ++ ("Request example (" ++ mt ++ ")") ++ "**\n") = true := by
  simp [isReqExampleChunk, strHasPrefix, String.data_append, List.isPrefixOf]

theorem reqChunk_bareLabel :
    isReqExampleChunk "\n**Request example**\n" = true := by decide

theorem reqChunk_producesHeader : isReqExampleChunk ("**Produces**\n") = false := by decide

theorem reqChunk_consumesHeader : isReqExampleChunk ("**Consumes**\n") = false := by decide

theorem reqChunk_paramsHeader : isReqExampleChunk ("**Parameters**\n") = false := by decide

theorem reqChunk_nl : isReqExampleChunk "\n" = false := by decide

theorem reqChunk_responsesHeader : isReqExampleChunk ("\n**Responses**\n") = false := by decide

theorem reqChunk_defaultLine (r : S2Response) :
    isReqExampleChunk (s2DefaultRespLine r) = false := by
  simp [s2DefaultRespLine, isReqExampleChunk, strHasPrefix, String.data_append,
    List.isPrefixOf]

theorem reqChunk_respLine (code : Nat) (r : S2Response) :
    isReqExampleChunk
      ("- " ++ toString code ++ " — "
        ++ (if trimSpace r.description = "" then "No description" else trimSpace r.description)
        ++ (match r.schema with
            | some sch =>
              if schemaSummarySwagger2 (some sch) ≠ "" then
                " (schema: " ++ schemaSummarySwagger2 (some sch) ++ ")"
              else ""
            | none => "")
        ++ "\n") = false := by
  simp [isReqExampleChunk, strHasPrefix, String.data_append, List.isPrefixOf]

theorem reqFilter_respWrites (code : Nat) (r : S2Response) :
    (s2RespWrites code r).filter isReqExampleChunk = [] := by
  rw [List.filter_eq_nil_iff]
  intro w hw
  simp only [s2RespWrites] at hw
  rcases List.mem_append.mp hw with h | h
  · rcases List.mem_cons.mp h with h | h
    · rw [h]
      simp [isReqExampleChunk, strHasPrefix, String.data_append, List.isPrefixOf]
    · cases h
  · by_cases hne : r.examples ≠ []
    · rw [if_pos hne] at h
      rcases List.mem_flatMap.mp h with ⟨mt, _, hmem⟩
      rcases hlk : lookupKey mt r.examples with _ | v
      · rw [hlk] at hmem
        cases hmem
      · rw [hlk] at hmem
        simp only [writeExampleFence] at hmem
        rcases List.mem_cons.mp hmem with h2 | h2
        · rw [h2]
          simp [isReqExampleChunk, strHasPrefix, String.data_append, List.isPrefixOf]
        · rcases List.mem_cons.mp h2 with h3 | h3
          · rw [h3]
            simp [isReqExampleChunk, strHasPrefix, String.data_append, List.isPrefixOf]
          · cases h3
    · rw [if_neg hne] at h
      cases h

theorem reqFilter_mediaSeg (mts : List String) :
    (mts.map (fun mt => "- " ++ mt ++ "\n")).filter isReqExampleChunk = [] := by
  induction mts with
  | nil => rfl
  | cons mt rest ih => simp [List.filter_cons, reqChunk_mediaLine, ih]

theorem reqFilter_paramSeg (ps : List S2Parameter) :
    (ps.map s2ParamLineChunk).filter isReqExampleChunk = [] := by
  induction ps with
  | nil => rfl
  | cons prm rest ih => simp [List.filter_cons, reqChunk_paramLine, ih]

theorem reqFilter_reqFences (ex : String) (c : List String) :
    (c.flatMap (fun mt =>
        writeExampleFence ("Request example (" ++ mt ++ ")") mt ex)).filter isReqExampleChunk
      = c.map (fun mt => "\n**" ++ ("Request example (" ++ mt ++ ")") ++ "**\n") := by
  induction c with
  | nil => rfl
  | cons mt rest ih =>
    rw [List.flatMap_cons, List.filter_append, ih]
    simp [writeExampleFence, List.filter_cons, reqChunk_reqLabel, reqChunk_fenceBody]

theorem reqFilter_bareFence (ex : String) :
    (writeExampleFence "Request example" "" ex).filter isReqExampleChunk
      = ["\n**" ++ "Request example" ++ "**\n"] := by
  simp [writeExampleFence, List.filter_cons, reqChunk_bareLabel, reqChunk_fenceBody]

theorem reqFilter_respFlat (rs : List (Nat × S2Response)) :
    ((sortNats (rs.map Prod.fst)).flatMap (fun code =>
        match lookupKey code rs with
        | none => []
        | some r => s2RespWrites code r)).filter isReqExampleChunk = [] := by
  rw [List.filter_flatMap, List.flatMap_eq_nil_iff]
  intro code _
  rcases hlk : lookupKey code rs with _ | r
  · simp [hlk]
  · simp [hlk, reqFilter_respWrites]

theorem reqFilter_respSeg (ro : Option S2Responses) :
    (List.filter isReqExampleChunk
      (match ro with
       | none => []
       | some rs =>
         if !rs.statusCodeResponses.isEmpty || rs.dflt.isSome then
           "\n**Responses**\n"
           :: ((sortNats (rs.statusCodeResponses.map Prod.fst)).flatMap (fun code =>
                 match lookupKey code rs.statusCodeResponses with
                 | none => []
                 | some r => s2RespWrites code r))
           ++ (match rs.dflt with
               | some r => [s2DefaultRespLine r]
               | none => [])
         else [])) = [] := by
  rcases ro with _ | rs
  · rfl
  · by_cases hc : (!rs.statusCodeResponses.isEmpty || rs.dflt.isSome) = true
    · simp only [hc, if_pos]
      rw [List.filter_append, List.filter_cons, reqChunk_responsesHeader]
      simp only [Bool.false_eq_true, if_false]
      rw [reqFilter_respFlat]
      rcases hd : rs.dflt with _ | r
      · rfl
      · simp [List.filter_cons, reqChunk_defaultLine]
    · simp only [Bool.not_eq_true] at hc
      simp [hc]

/-- C10: for a dialect-A operation whose body parameter carries an example,
the operation section emits one `Request example (<media-type>)` block per
effective consumes entry, in list order, and a single block with the bare
label `Request example` when the effective consumes list is empty. -/
theorem C10_request_example_blocks :
    ∀ (method path : String) (op : S2Operation) (gp gc : List String)
      (bs : S2Schema) (ex : String),
      (op.parameters.find? (fun prm => decide (prm.inLoc = "body") && prm.schema.isSome)).bind
          S2Parameter.schema = some bs →
      s2BodyExample bs = some ex →
      isReqExampleChunk (op.summary ++ "\n\n") = false →
      isReqExampleChunk (op.description ++ "\n\n") = false →
      (writeSwagger2Operation method path op gp gc).filter isReqExampleChunk
        = (if (if op.consumes = [] then gc else op.consumes) = []
           then ["\n**Request example**\n"]
           else (if op.consumes = [] then gc else op.consumes).map
                  (fun mt => "\n**" ++ ("Request example (" ++ mt ++ ")") ++ "**\n")) := by
  intro method path op gp gc bs ex hfind hex hs hd
  simp only [writeSwagger2Operation, hfind, hex, List.filter_append,
    apply_ite (List.filter isReqExampleChunk),
    List.filter_cons, List.filter_nil,
    reqChunk_opHeader, hs, hd, reqChunk_opId,
    reqChunk_producesHeader, reqChunk_consumesHeader, reqChunk_paramsHeader,
    reqChunk_nl, reqFilter_mediaSeg, reqFilter_paramSeg,
    reqFilter_reqFences, reqFilter_bareFence, reqFilter_respSeg,
    Bool.false_eq_true, if_false, ite_self, ite_not,
    List.nil_append, List.append_nil]
  rfl

def s2BodySchemaEx : S2Schema :=
  .mk "" [] "" none "" [] [] none [] (some "\x7b\"x\": 1\x7d") []

def s2BodyParam : S2Parameter :=
  { inLoc := "body", name := "body", required := true, type := "",
    schema := some s2BodySchemaEx, description := "", dflt := none, enum := [] }

def s2OpBodyTwo : S2Operation :=
  { tags := [], summary := "", description := "", id := "", produces := [],
    consumes := ["application/json", "application/xml"], parameters := [s2BodyParam],
    responses := none }

def s2OpBodyBare : S2Operation :=
  { tags := [], summary := "", description := "", id := "", produces := [],
    consumes := [], parameters := [s2BodyParam], responses := none }

/-- C10 witness: two effective consumes entries give exactly two labeled
blocks in list order; an empty effective consumes list gives one block with
the bare label. -/
theorem C10_witness :
    (writeSwagger2Operation "POST" "/pets" s2OpBodyTwo [] []).filter isReqExampleChunk
      = ["\n**" ++ ("Request example (" ++ "application/json" ++ ")") ++ "**\n",
         "\n**" ++ ("Request example (" ++ "application/xml" ++ ")") ++ "**\n"]
  ∧ (writeSwagger2Operation "POST" "/pets" s2OpBodyBare [] []).filter isReqExampleChunk
      = ["\n**Request example**\n"] := by
  constructor
  · exact (C10_request_example_blocks "POST" "/pets" s2OpBodyTwo [] [] s2BodySchemaEx
      "\x7b\"x\": 1\x7d" rfl rfl (by decide) (by decide)).trans (by decide)
  · exact (C10_request_example_blocks "POST" "/pets" s2OpBodyBare [] [] s2BodySchemaEx
      "\x7b\"x\": 1\x7d" rfl rfl (by decide) (by decide)).trans (by decide)

/-- The seven fixed section-header chunks, in declared order (each is a
single buffer write in both adapters). -/
def sectionHeaderChunks : List String :=
  ["## Overview\n", "\n## Authentication\n", "\n## Servers\n", "\n## Tags\n",
   "\n## Endpoints by Tag\n", "\n## Schemas\n", "\n## Examples\n"]

/-- Whether a buffer write is one of the fixed section-header chunks. -/
def isSectionHeader (w : String) : Bool := decide (w ∈ sectionHeaderChunks)

theorem hdrF_take1 (w : String) (c : Char) (h : w.data.take 1 = [c])
    (hc1 : c ≠ '\n') (hc2 : c ≠ '#') : isSectionHeader w = false := by
  unfold isSectionHeader
  rw [decide_eq_false_iff_not]
  intro hmem
  simp only [sectionHeaderChunks, List.mem_cons, List.not_mem_nil, or_false] at hmem
  rcases hmem with rfl | rfl | rfl | rfl | rfl | rfl | rfl <;>
    · simp at h
      first
      | exact hc1 h.symm
      | exact hc2 h.symm

theorem hdrF_nlstar (w : String) (h : w.data.take 2 = ['\n', '*']) :
    isSectionHeader w = false := by
  unfold isSectionHeader
  rw [decide_eq_false_iff_not]
  intro hmem
  simp only [sectionHeaderChunks, List.mem_cons, List.not_mem_nil, or_false] at hmem
  rcases hmem with rfl | rfl | rfl | rfl | rfl | rfl | rfl <;> simp_all

theorem hdrF_nl3hash (w : String) (h : w.data.take 4 = ['\n', '#', '#', '#']) :
    isSectionHeader w = false := by
  unfold isSectionHeader
  rw [decide_eq_false_iff_not]
  intro hmem
  simp only [sectionHeaderChunks, List.mem_cons, List.not_mem_nil, or_false] at hmem
  rcases hmem with rfl | rfl | rfl | rfl | rfl | rfl | rfl <;> simp_all

theorem hdrF_dnl (s : String) : isSectionHeader (s ++ "\n\n") = false := by
  unfold isSectionHeader
  rw [decide_eq_false_iff_not]
  intro hmem
  simp only [sectionHeaderChunks, List.mem_cons, List.not_mem_nil, or_false] at hmem
  rcases hmem with h | h | h | h | h | h | h <;>
    · have h2 := congrArg (fun x : String => x.data.reverse) h
      simp [String.data_append] at h2

theorem hdrF_dash (s : String) : isSectionHeader ("- " ++ s) = false :=
  hdrF_take1 _ '-' (by simp [String.data_append]) (by decide) (by decide)

theorem hdrF_noneDefined : isSectionHeader "- None defined\n" = false := by decide

theorem hdrF_authLine (n : String) (sec : S2SecurityScheme) :
    isSectionHeader (s2AuthLineChunk n sec) = false :=
  hdrF_take1 _ '-' (by simp [s2AuthLineChunk, String.data_append]) (by decide) (by decide)

theorem hdrF_tagLine (t : S2Tag) : isSectionHeader (s2TagLineChunk t) = false := by
  unfold s2TagLineChunk
  split <;>
    exact hdrF_take1 _ '-' (by simp [String.data_append]) (by decide) (by decide)

theorem hdrF_tagHeading (n : String) : isSectionHeader ("\n### " ++ n ++ "\n") = false :=
  hdrF_nl3hash _ (by simp [String.data_append])

theorem hdrF_untaggedHeading : isSectionHeader "\n### Untagged\n" = false := by decide

theorem hdrF_opHeader (m p : String) :
    isSectionHeader ("\n#### " ++ m ++ " " ++ p ++ "\n") = false :=
  hdrF_nl3hash _ (by simp [String.data_append])

theorem hdrF_opId (s : String) :
    isSectionHeader ("_Operation ID_: `" ++ s ++ "`\n\n") = false :=
  hdrF_take1 _ '_' (by simp [String.data_append]) (by decide) (by decide)

theorem hdrF_producesHeader : isSectionHeader "**Produces**\n" = false := by decide

theorem hdrF_consumesHeader : isSectionHeader "**Consumes**\n" = false := by decide

theorem hdrF_paramsHeader : isSectionHeader "**Parameters**\n" = false := by decide

theorem hdrF_propsHeader : isSectionHeader "**Properties**\n" = false := by decide

theorem hdrF_nl : isSectionHeader "\n" = false := by decide

theorem hdrF_responsesHeader : isSectionHeader "\n**Responses**\n" = false := by decide

theorem hdrF_paramLine (prm : S2Parameter) :
    isSectionHeader (s2ParamLineChunk prm) = false :=
  hdrF_take1 _ '-' (by simp [s2ParamLineChunk, String.data_append]) (by decide) (by decide)

theorem hdrF_defaultLine (r : S2Response) :
    isSectionHeader (s2DefaultRespLine r) = false :=
  hdrF_take1 _ '-' (by simp [s2DefaultRespLine, String.data_append]) (by decide) (by decide)

theorem hdrF_fenceLabel (label : String) :
    isSectionHeader ("\n**" ++ label ++ "**\n") = false :=
  hdrF_nlstar _ (by simp [String.data_append])

theorem hdrF_fenceBody (v : String) :
    isSectionHeader ("```\n" ++ v ++ "\n" ++ "```" ++ "\n") = false :=
  hdrF_take1 _ '`' (by simp [String.data_append]) (by decide) (by decide)

theorem hdrF_fenceBodyRaw (v : String) :
    isSectionHeader ("```" ++ "\n" ++ v ++ "\n" ++ "```" ++ "\n") = false :=
  hdrF_take1 _ '`' (by simp [String.data_append]) (by decide) (by decide)

theorem hdrFilter_fence (label mt v : String) :
    (writeExampleFence label mt v).filter isSectionHeader = [] := by
  simp [writeExampleFence, List.filter_cons, hdrF_fenceLabel, hdrF_fenceBody]

theorem hdrF_mediaLine (mt : String) : isSectionHeader ("- " ++ mt ++ "\n") = false :=
  hdrF_take1 _ '-' (by simp [String.data_append]) (by decide) (by decide)

theorem hdrFilter_mediaSeg (mts : List String) :
    (mts.map (fun mt => "- " ++ mt ++ "\n")).filter isSectionHeader = [] := by
  induction mts with
  | nil => rfl
  | cons mt rest ih => simp [List.filter_cons, hdrF_mediaLine, ih]

theorem hdrFilter_paramSeg (ps : List S2Parameter) :
    (ps.map s2ParamLineChunk).filter isSectionHeader = [] := by
  induction ps with
  | nil => rfl
  | cons prm rest ih => simp [List.filter_cons, hdrF_paramLine, ih]

theorem hdrFilter_respWrites (code : Nat) (r : S2Response) :
    (s2RespWrites code r).filter isSectionHeader = [] := by
  rw [List.filter_eq_nil_iff]
  intro w hw
  simp only [s2RespWrites] at hw
  rcases List.mem_append.mp hw with h | h
  · rcases List.mem_cons.mp h with h | h
    · rw [h]
      exact Bool.not_eq_true _ ▸ (by
        exact (by
          rw [hdrF_take1 _ '-' (by simp [String.data_append]) (by decide) (by decide)]
          decide) : ¬ _)
    · cases h
  · by_cases hne : r.examples ≠ []
    · rw [if_pos hne] at h
      rcases List.mem_flatMap.mp h with ⟨mt, _, hmem⟩
      rcases hlk : lookupKey mt r.examples with _ | v
      · rw [hlk] at hmem
        cases hmem
      · rw [hlk] at hmem
        simp only [writeExampleFence] at hmem
        rcases List.mem_cons.mp hmem with h2 | h2
        · rw [h2, hdrF_fenceLabel]
          decide
        · rcases List.mem_cons.mp h2 with h3 | h3
          · rw [h3, hdrF_fenceBodyRaw]
            decide
          · cases h3
    · rw [if_neg hne] at h
      cases h

theorem hdrFilter_reqFences (ex : String) (c : List String) :
    (c.flatMap (fun mt =>
        writeExampleFence ("Request example (" ++ mt ++ ")") mt ex)).filter isSectionHeader
      = [] := by
  rw [List.filter_flatMap, List.flatMap_eq_nil_iff]
  intro mt _
  exact hdrFilter_fence _ _ _

theorem hdrFilter_reqSeg (params : List S2Parameter) (consumes : List String) :
    (List.filter isSectionHeader
      (match (params.find? (fun prm => decide (prm.inLoc = "body") && prm.schema.isSome)).bind
          S2Parameter.schema with
       | none => []
       | some bs =>
         match s2BodyExample bs with
         | none => []
         | some ex =>
           if consumes ≠ [] then
             consumes.flatMap (fun mt =>
               writeExampleFence ("Request example (" ++ mt ++ ")") mt ex)
           else writeExampleFence "Request example" "" ex)) = [] := by
  rcases hf : (params.find? (fun prm => decide (prm.inLoc = "body") && prm.schema.isSome)).bind
      S2Parameter.schema with _ | bs
  · simp [hf]
  · rcases he : s2BodyExample bs with _ | ex
    · simp [hf, he]
    · simp only [hf, he]
      by_cases hc : consumes ≠ []
      · simp only [if_pos hc]
        exact hdrFilter_reqFences ex consumes
      · simp only [if_neg hc]
        exact hdrFilter_fence _ _ _

theorem hdrFilter_respFlat (rs : List (Nat × S2Response)) :
    ((sortNats (rs.map Prod.fst)).flatMap (fun code =>
        match lookupKey code rs with
        | none => []
        | some r => s2RespWrites code r)).filter isSectionHeader = [] := by
  rw [List.filter_flatMap, List.flatMap_eq_nil_iff]
  intro code _
  rcases hlk : lookupKey code rs with _ | r
  · simp [hlk]
  · simp [hlk, hdrFilter_respWrites]

theorem hdrFilter_respSeg (ro : Option S2Responses) :
    (List.filter isSectionHeader
      (match ro with
       | none => []
       | some rs =>
         if !rs.statusCodeResponses.isEmpty || rs.dflt.isSome then
           "\n**Responses**\n"
           :: ((sortNats (rs.statusCodeResponses.map Prod.fst)).flatMap (fun code =>
                 match lookupKey code rs.statusCodeResponses with
                 | none => []
                 | some r => s2RespWrites code r))
           ++ (match rs.dflt with
               | some r => [s2DefaultRespLine r]
               | none => [])
         else [])) = [] := by
  rcases ro with _ | rs
  · rfl
  · by_cases hc : (!rs.statusCodeResponses.isEmpty || rs.dflt.isSome) = true
    · simp only [hc, if_pos]
      rw [List.filter_append, List.filter_cons, hdrF_responsesHeader]
      simp only [Bool.false_eq_true, if_false]
      rw [hdrFilter_respFlat]
      rcases hd : rs.dflt with _ | r
      · rfl
      · simp [List.filter_cons, hdrF_defaultLine]
    · simp only [Bool.not_eq_true] at hc
      simp [hc]

theorem hdrFilter_opWrites (m p : String) (op : S2Operation) (gp gc : List String) :
    (writeSwagger2Operation m p op gp gc).filter isSectionHeader = [] := by
  simp only [writeSwagger2Operation, List.filter_append,
    apply_ite (List.filter isSectionHeader), List.filter_cons, List.filter_nil,
    hdrF_opHeader, hdrF_dnl, hdrF_opId, hdrF_producesHeader, hdrF_consumesHeader,
    hdrF_paramsHeader, hdrF_nl, hdrFilter_mediaSeg, hdrFilter_paramSeg,
    hdrFilter_reqSeg, hdrFilter_respSeg,
    Bool.false_eq_true, if_false, ite_self, List.nil_append, List.append_nil]

theorem hdrFilter_schemaEntry (name : String) (sch : S2Schema) :
    (s2SchemaEntryWrites name sch).filter isSectionHeader = [] := by
  rw [List.filter_eq_nil_iff]
  intro w hw
  simp only [s2SchemaEntryWrites] at hw
  rcases List.mem_append.mp hw with h | h
  · rcases List.mem_append.mp h with h | h
    · rcases List.mem_append.mp h with h | h
      · rcases List.mem_cons.mp h with h | h
        · rw [h, hdrF_tagHeading]
          decide
        · cases h
      · by_cases hc : sch.description ≠ ""
        · rw [if_pos hc] at h
          rcases List.mem_cons.mp h with h | h
          · rw [h, hdrF_dnl]
            decide
          · cases h
        · rw [if_neg hc] at h
          cases h
    · by_cases hc : (!sch.properties.isEmpty) = true
      · rw [if_pos hc] at h
        rcases List.mem_cons.mp h with h | h
        · rw [h, hdrF_propsHeader]
          decide
        · rcases List.mem_flatMap.mp h with ⟨pn, _, hmem⟩
          rcases hlk : lookupKey pn sch.properties with _ | ps
          · rw [hlk] at hmem
            cases hmem
          · rw [hlk] at hmem
            rcases List.mem_cons.mp hmem with h2 | h2
            · rw [h2]
              intro hcontra
              rw [hdrF_take1 _ '-' (by simp [String.data_append]) (by decide) (by decide)]
                at hcontra
              exact Bool.false_ne_true hcontra
            · cases h2
      · rw [if_neg hc] at h
        cases h
  · rcases hx : sch.exampleVal with _ | ex
    · rw [hx] at h
      rcases hlk : lookupKey "x-example" sch.extensions with _ | v
      · rw [hlk] at h
        cases h
      · rw [hlk] at h
        have hfence := hdrFilter_fence "Example" "application/json" v
        rw [List.filter_eq_nil_iff] at hfence
        exact hfence w h
    · rw [hx] at h
      have hfence := hdrFilter_fence "Example" "application/json" ex
      rw [List.filter_eq_nil_iff] at hfence
      exact hfence w h

theorem hdrT_overview : isSectionHeader "## Overview\n" = true := by decide

theorem hdrT_auth : isSectionHeader "\n## Authentication\n" = true := by decide

theorem hdrT_servers : isSectionHeader "\n## Servers\n" = true := by decide

theorem hdrT_tags : isSectionHeader "\n## Tags\n" = true := by decide

theorem hdrT_endpoints : isSectionHeader "\n## Endpoints by Tag\n" = true := by decide

theorem hdrT_schemas : isSectionHeader "\n## Schemas\n" = true := by decide

theorem hdrT_examples : isSectionHeader "\n## Examples\n" = true := by decide

theorem hdrF_titleLine (t : String) : isSectionHeader ("# " ++ t ++ "\n\n") = false :=
  hdrF_dnl ("# " ++ t)

theorem hdrF_versionLine (v : String) :
    isSectionHeader ("- Version: " ++ v ++ "\n") = false :=
  hdrF_take1 _ '-' (by simp [String.data_append]) (by decide) (by decide)

theorem hdrF_descLine (d : String) :
    isSectionHeader ("- Description: " ++ d ++ "\n") = false :=
  hdrF_take1 _ '-' (by simp [String.data_append]) (by decide) (by decide)

theorem hdrF_contactLine (c : String) :
    isSectionHeader ("- Contact: " ++ c ++ "\n") = false :=
  hdrF_take1 _ '-' (by simp [String.data_append]) (by decide) (by decide)

theorem hdrF_emailLine (c : String) :
    isSectionHeader ("- Contact Email: " ++ c ++ "\n") = false :=
  hdrF_take1 _ '-' (by simp [String.data_append]) (by decide) (by decide)

theorem hdrF_licenseLine (c : String) :
    isSectionHeader ("- License: " ++ c ++ "\n") = false :=
  hdrF_take1 _ '-' (by simp [String.data_append]) (by decide) (by decide)

theorem hdrFilter_infoSeg (oi : Option S2Info) :
    (List.filter isSectionHeader
      (match oi with
       | some i =>
         (if i.description ≠ "" then ["- Description: " ++ trimSpace i.description ++ "\n"]
          else [])
         ++ (match i.contact with
             | some c =>
               (if c.name ≠ "" then ["- Contact: " ++ c.name ++ "\n"] else [])
               ++ (if c.email ≠ "" then ["- Contact Email: " ++ c.email ++ "\n"] else [])
             | none => [])
         ++ (match i.license with
             | some lic => if lic.name ≠ "" then ["- License: " ++ lic.name ++ "\n"] else []
             | none => [])
       | none => [])) = [] := by
  rcases oi with _ | i
  · rfl
  · rw [List.filter_eq_nil_iff]
    intro w hw
    rcases List.mem_append.mp hw with h | h
    · rcases List.mem_append.mp h with h | h
      · by_cases hc : i.description ≠ ""
        · rw [if_pos hc] at h
          rcases List.mem_cons.mp h with h | h
          · rw [h, hdrF_descLine]
            decide
          · cases h
        · rw [if_neg hc] at h
          cases h
      · rcases hco : i.contact with _ | c
        · simp only [hco] at h
          cases h
        · simp only [hco] at h
          rcases List.mem_append.mp h with h | h
          · by_cases hc : c.name ≠ ""
            · rw [if_pos hc] at h
              rcases List.mem_cons.mp h with h | h
              · rw [h, hdrF_contactLine]
                decide
              · cases h
            · rw [if_neg hc] at h
              cases h
          · by_cases hc : c.email ≠ ""
            · rw [if_pos hc] at h
              rcases List.mem_cons.mp h with h | h
              · rw [h, hdrF_emailLine]
                decide
              · cases h
            · rw [if_neg hc] at h
              cases h
    · rcases hli : i.license with _ | lic
      · simp only [hli] at h
        cases h
      · simp only [hli] at h
        by_cases hc : lic.name ≠ ""
        · rw [if_pos hc] at h
          rcases List.mem_cons.mp h with h | h
          · rw [h, hdrF_licenseLine]
            decide
          · cases h
        · rw [if_neg hc] at h
          cases h

theorem hdrFilter_authSeg (l : List (String × S2SecurityScheme)) :
    (l.map (fun nv => s2AuthLineChunk nv.1 nv.2)).filter isSectionHeader = [] := by
  induction l with
  | nil => rfl
  | cons nv rest ih => simp [List.filter_cons, hdrF_authLine, ih]

theorem hdrFilter_tagSeg (l : List S2Tag) :
    (l.map s2TagLineChunk).filter isSectionHeader = [] := by
  induction l with
  | nil => rfl
  | cons t rest ih => simp [List.filter_cons, hdrF_tagLine, ih]

theorem hdrFilter_opFlat (l : List S2OpRef) (gp gc : List String) :
    (l.flatMap (fun r => writeSwagger2Operation r.method r.path r.op gp gc)).filter
      isSectionHeader = [] := by
  rw [List.filter_flatMap, List.flatMap_eq_nil_iff]
  intro r _
  exact hdrFilter_opWrites _ _ _ _ _

theorem hdrFilter_endpointsSeg (b : List (String × List S2OpRef) × List S2OpRef)
    (gp gc : List String) :
    (List.filter isSectionHeader
      ((sortStrings (b.1.map Prod.fst)).flatMap (fun name =>
         ("\n### " ++ name ++ "\n")
         :: (bucketVal name b.1).flatMap
              (fun r => writeSwagger2Operation r.method r.path r.op gp gc))
       ++ (if !b.2.isEmpty then
             "\n### Untagged\n"
             :: b.2.flatMap (fun r => writeSwagger2Operation r.method r.path r.op gp gc)
           else []))) = [] := by
  rw [List.filter_append]
  have h1 : ((sortStrings (b.1.map Prod.fst)).flatMap (fun name =>
      ("\n### " ++ name ++ "\n")
      :: (bucketVal name b.1).flatMap
           (fun r => writeSwagger2Operation r.method r.path r.op gp gc))).filter
        isSectionHeader = [] := by
    rw [List.filter_flatMap, List.flatMap_eq_nil_iff]
    intro name _
    rw [List.filter_cons, hdrF_tagHeading]
    simp only [Bool.false_eq_true, if_false]
    exact hdrFilter_opFlat _ _ _
  have h2 : (List.filter isSectionHeader
      (if !b.2.isEmpty then
         "\n### Untagged\n"
         :: b.2.flatMap (fun r => writeSwagger2Operation r.method r.path r.op gp gc)
       else [])) = [] := by
    by_cases hc : (!b.2.isEmpty) = true
    · rw [if_pos hc, List.filter_cons, hdrF_untaggedHeading]
      simp only [Bool.false_eq_true, if_false]
      exact hdrFilter_opFlat _ _ _
    · simp only [Bool.not_eq_true] at hc
      simp [hc]
  rw [h1, h2]
  rfl

theorem hdrFilter_schemasFlat (defs : List (String × S2Schema)) :
    ((sortStrings (defs.map Prod.fst)).flatMap (fun name =>
        match lookupKey name defs with
        | none => []
        | some sch => s2SchemaEntryWrites name sch)).filter isSectionHeader = [] := by
  rw [List.filter_flatMap, List.flatMap_eq_nil_iff]
  intro name _
  rcases hlk : lookupKey name defs with _ | sch
  · simp [hlk]
  · simp [hlk, hdrFilter_schemaEntry]

theorem hdrFilter_exampleIndexLine (m p : String) (cr : Nat × S2Response) :
    (s2ExampleIndexLine m p cr).filter isSectionHeader = [] := by
  unfold s2ExampleIndexLine
  split
  · rfl
  · split
    · rw [List.filter_cons]
      have hf := hdrF_take1 ("- " ++ m ++ " " ++ p ++ " " ++ toString cr.1
          ++ " — has inline examples\n") '-'
        (by simp [String.data_append]) (by decide) (by decide)
      rw [hf]
      simp
    · rfl

theorem hdrFilter_examplesSeg (paths : List (String × S2PathItem)) :
    ((sortStrings (paths.map Prod.fst)).flatMap (fun p =>
        match lookupKey p paths with
        | none => []
        | some pi =>
          (s2Slots pi).flatMap (fun ms =>
            match ms.2 with
            | none => []
            | some op =>
              match op.responses with
              | none => []
              | some rs =>
                rs.statusCodeResponses.flatMap (s2ExampleIndexLine ms.1 p)))).filter
      isSectionHeader = [] := by
  rw [List.filter_flatMap, List.flatMap_eq_nil_iff]
  intro p _
  rcases hlk : lookupKey p paths with _ | pi
  · simp [hlk]
  · simp only [hlk]
    rw [List.filter_flatMap, List.flatMap_eq_nil_iff]
    intro ms _
    rcases hop : ms.2 with _ | op
    · simp [hop]
    · simp only [hop]
      rcases hrs : op.responses with _ | rs
      · simp [hrs]
      · simp only [hrs]
        rw [List.filter_flatMap, List.flatMap_eq_nil_iff]
        intro cr _
        exact hdrFilter_exampleIndexLine _ _ _

theorem hdrFilter_tagBlocks (m : List (String × List S2OpRef)) (gp gc : List String) :
    ((sortStrings (m.map Prod.fst)).flatMap (fun name =>
        ("\n### " ++ name ++ "\n")
        :: (bucketVal name m).flatMap
             (fun r => writeSwagger2Operation r.method r.path r.op gp gc))).filter
      isSectionHeader = [] := by
  rw [List.filter_flatMap, List.flatMap_eq_nil_iff]
  intro name _
  rw [List.filter_cons, hdrF_tagHeading]
  simp only [Bool.false_eq_true, if_false]
  exact hdrFilter_opFlat _ _ _

theorem swagger2_headerFilter (s : SwaggerDoc) :
    (swagger2Writes s).filter isSectionHeader
      = ["## Overview\n", "\n## Authentication\n", "\n## Servers\n", "\n## Tags\n",
         "\n## Endpoints by Tag\n"]
        ++ (if s.definitions.isEmpty then [] else ["\n## Schemas\n"])
        ++ ["\n## Examples\n"] := by
  simp only [swagger2Writes, List.filter_append,
    apply_ite (List.filter isSectionHeader), List.filter_cons, List.filter_nil,
    hdrF_titleLine, hdrT_overview, hdrF_versionLine, hdrFilter_infoSeg,
    hdrT_auth, hdrF_noneDefined, hdrFilter_authSeg,
    hdrT_servers, hdrF_mediaLine,
    hdrT_tags, hdrFilter_tagSeg,
    hdrT_endpoints, hdrFilter_tagBlocks, hdrF_untaggedHeading, hdrFilter_opFlat,
    hdrT_schemas, hdrFilter_schemasFlat,
    hdrT_examples, hdrFilter_examplesSeg,
    Bool.false_eq_true, if_false, if_true, ite_self,
    List.nil_append, List.append_nil]
  by_cases hd : s.definitions.isEmpty <;> simp [hd]

theorem hdrF_oa3AuthLine (n : String) (ss : OA3SecurityScheme) :
    isSectionHeader (oa3AuthLineChunk n ss) = false :=
  hdrF_take1 _ '-' (by simp [oa3AuthLineChunk, String.data_append]) (by decide) (by decide)

theorem hdrFilter_oa3AuthSeg (l : List (String × Option OA3SecurityScheme)) :
    ((sortStrings (l.map Prod.fst)).flatMap (fun name =>
        match lookupKey name l with
        | some (some ss) => [oa3AuthLineChunk name ss]
        | _ => [])).filter isSectionHeader = [] := by
  rw [List.filter_flatMap, List.flatMap_eq_nil_iff]
  intro name _
  rcases hlk : lookupKey name l with _ | oss
  · simp [hlk]
  · rcases oss with _ | ss
    · simp [hlk]
    · simp [hlk, List.filter_cons, hdrF_oa3AuthLine]

theorem hdrF_serverLine (u : String) : isSectionHeader ("- " ++ u ++ "\n") = false :=
  hdrF_take1 _ '-' (by simp [String.data_append]) (by decide) (by decide)

theorem hdrFilter_serverSeg (l : List OA3Server) :
    (l.map (fun sv =>
        "- " ++ (sv.url ++ (if !sv.vars.isEmpty then " {vars}" else "")) ++ "\n")).filter
      isSectionHeader = [] := by
  induction l with
  | nil => rfl
  | cons sv rest ih => simp [List.filter_cons, hdrF_serverLine, ih]

theorem hdrF_oa3TagLine (t : OA3Tag) : isSectionHeader (oa3TagLineChunk t) = false := by
  unfold oa3TagLineChunk
  split <;>
    exact hdrF_take1 _ '-' (by simp [String.data_append]) (by decide) (by decide)

theorem hdrFilter_oa3TagSeg (l : List OA3Tag) :
    (l.map oa3TagLineChunk).filter isSectionHeader = [] := by
  induction l with
  | nil => rfl
  | cons t rest ih => simp [List.filter_cons, hdrF_oa3TagLine, ih]

theorem hdrFilter_oa3InfoSeg (oi : Option OA3Info) :
    (List.filter isSectionHeader
      (match oi with
       | some i =>
         (match i.contact with
          | some c =>
            (if c.name ≠ "" then ["- Contact: " ++ c.name ++ "\n"] else [])
            ++ (if c.email ≠ "" then ["- Contact Email: " ++ c.email ++ "\n"] else [])
          | none => [])
         ++ (match i.license with
             | some lic => if lic.name ≠ "" then ["- License: " ++ lic.name ++ "\n"] else []
             | none => [])
       | none => [])) = [] := by
  rcases oi with _ | i
  · rfl
  · rw [List.filter_eq_nil_iff]
    intro w hw
    rcases List.mem_append.mp hw with h | h
    · rcases hco : i.contact with _ | c
      · simp only [hco] at h
        cases h
      · simp only [hco] at h
        rcases List.mem_append.mp h with h | h
        · by_cases hc : c.name ≠ ""
          · rw [if_pos hc] at h
            rcases List.mem_cons.mp h with h | h
            · rw [h, hdrF_contactLine]
              decide
            · cases h
          · rw [if_neg hc] at h
            cases h
        · by_cases hc : c.email ≠ ""
          · rw [if_pos hc] at h
            rcases List.mem_cons.mp h with h | h
            · rw [h, hdrF_emailLine]
              decide
            · cases h
          · rw [if_neg hc] at h
            cases h
    · rcases hli : i.license with _ | lic
      · simp only [hli] at h
        cases h
      · simp only [hli] at h
        by_cases hc : lic.name ≠ ""
        · rw [if_pos hc] at h
          rcases List.mem_cons.mp h with h | h
          · rw [h, hdrF_licenseLine]
            decide
          · cases h
        · rw [if_neg hc] at h
          cases h

theorem hdrFilter_oa3ParamLines (params : List (Option OA3Parameter)) :
    (params.filterMap oa3ParamLineChunk).filter isSectionHeader = [] := by
  rw [List.filter_eq_nil_iff]
  intro w hw
  rcases List.mem_filterMap.mp hw with ⟨pr, _, hpr⟩
  rcases pr with _ | par
  · cases hpr
  · simp only [oa3ParamLineChunk] at hpr
    have hw2 := Option.some.inj hpr
    rw [← hw2]
    intro hcontra
    rw [hdrF_take1 _ '-' (by simp [String.data_append]) (by decide) (by decide)] at hcontra
    exact Bool.false_ne_true hcontra

theorem hdrFilter_oa3ReqMedia (mt : String) (media : OA3MediaType) :
    (oa3RequestMediaWrites mt media).filter isSectionHeader = [] := by
  rw [List.filter_eq_nil_iff]
  intro w hw
  simp only [oa3RequestMediaWrites] at hw
  rcases List.mem_append.mp hw with h | h
  · rcases List.mem_append.mp h with h | h
    · rcases List.mem_cons.mp h with h | h
      · rw [h]
        intro hcontra
        rw [hdrF_take1 _ '-' (by simp [String.data_append]) (by decide) (by decide)]
          at hcontra
        exact Bool.false_ne_true hcontra
      · cases h
    · rcases hx : media.exampleVal with _ | e
      · rw [hx] at h
        cases h
      · rw [hx] at h
        have hfence := hdrFilter_fence ("Request example (" ++ mt ++ ")") mt e
        rw [List.filter_eq_nil_iff] at hfence
        exact hfence w h
  · by_cases hc : (!media.examples.isEmpty) = true
    · rw [if_pos hc] at h
      rcases List.mem_flatMap.mp h with ⟨name, _, hmem⟩
      rcases hlk : lookupKey name media.examples with _ | ov
      · rw [hlk] at hmem
        cases hmem
      · rcases ov with _ | v
        · rw [hlk] at hmem
          cases hmem
        · rw [hlk] at hmem
          have hfence := hdrFilter_fence ("Request example (" ++ name ++ ", " ++ mt ++ ")") mt v
          rw [List.filter_eq_nil_iff] at hfence
          exact hfence w hmem
    · simp only [Bool.not_eq_true] at hc
      rw [hc] at h
      simp at h

theorem hdrFilter_oa3RespMedia (code mt : String) (media : OA3MediaType) :
    (oa3ResponseMediaWrites code mt media).filter isSectionHeader = [] := by
  rw [List.filter_eq_nil_iff]
  intro w hw
  simp only [oa3ResponseMediaWrites] at hw
  rcases List.mem_append.mp hw with h | h
  · rcases List.mem_append.mp h with h | h
    · rcases List.mem_cons.mp h with h | h
      · rw [h]
        intro hcontra
        rw [hdrF_take1 _ ' ' (by simp [String.data_append]) (by decide) (by decide)]
          at hcontra
        exact Bool.false_ne_true hcontra
      · cases h
    · rcases hx : media.exampleVal with _ | e
      · rw [hx] at h
        cases h
      · rw [hx] at h
        have hfence := hdrFilter_fence ("Response example (" ++ code ++ ", " ++ mt ++ ")") mt e
        rw [List.filter_eq_nil_iff] at hfence
        exact hfence w h
  · by_cases hc : (!media.examples.isEmpty) = true
    · rw [if_pos hc] at h
      rcases List.mem_flatMap.mp h with ⟨name, _, hmem⟩
      rcases hlk : lookupKey name media.examples with _ | ov
      · rw [hlk] at hmem
        cases hmem
      · rcases ov with _ | v
        · rw [hlk] at hmem
          cases hmem
        · rw [hlk] at hmem
          have hfence := hdrFilter_fence
            ("Response example (" ++ name ++ ", " ++ code ++ ", " ++ mt ++ ")") mt v
          rw [List.filter_eq_nil_iff] at hfence
          exact hfence w hmem
    · simp only [Bool.not_eq_true] at hc
      rw [hc] at h
      simp at h

theorem hdrFilter_oa3RespWrites (code : String) (r : OA3Response) :
    (oa3RespWrites code r).filter isSectionHeader = [] := by
  rw [List.filter_eq_nil_iff]
  intro w hw
  simp only [oa3RespWrites] at hw
  rcases List.mem_append.mp hw with h | h
  · rcases List.mem_cons.mp h with h | h
    · rw [h]
      intro hcontra
      rw [hdrF_take1 _ '-' (by simp [String.data_append]) (by decide) (by decide)]
        at hcontra
      exact Bool.false_ne_true hcontra
    · cases h
  · by_cases hc : (!r.content.isEmpty) = true
    · rw [if_pos hc] at h
      rcases List.mem_flatMap.mp h with ⟨mt, _, hmem⟩
      rcases hlk : lookupKey mt r.content with _ | media
      · rw [hlk] at hmem
        cases hmem
      · rw [hlk] at hmem
        have hm := hdrFilter_oa3RespMedia code mt media
        rw [List.filter_eq_nil_iff] at hm
        exact hm w hmem
    · simp only [Bool.not_eq_true] at hc
      rw [hc] at h
      simp at h

theorem hdrFilter_oa3OpWrites (m p : String) (pi : OA3PathItem) (op : OA3Operation) :
    (writeOpenAPI3Operation m p pi op).filter isSectionHeader = [] := by
  rw [List.filter_eq_nil_iff]
  intro w hw
  simp only [writeOpenAPI3Operation] at hw
  rcases List.mem_append.mp hw with h | h
  · rcases List.mem_append.mp h with h | h
    · rcases List.mem_append.mp h with h | h
      · rcases List.mem_append.mp h with h | h
        · rcases List.mem_append.mp h with h | h
          · rcases List.mem_cons.mp h with h | h
            · rw [h, hdrF_opHeader]
              decide
            · cases h
          · by_cases hc : op.summary ≠ ""
            · rw [if_pos hc] at h
              rcases List.mem_cons.mp h with h | h
              · rw [h, hdrF_dnl]
                decide
              · cases h
            · rw [if_neg hc] at h
              cases h
        · by_cases hc : op.description ≠ ""
          · rw [if_pos hc] at h
            rcases List.mem_cons.mp h with h | h
            · rw [h, hdrF_dnl]
              decide
            · cases h
          · rw [if_neg hc] at h
            cases h
      · by_cases hc : (pi.parameters ++ op.parameters).isEmpty = true
        · rw [if_pos hc] at h
          cases h
        · rw [if_neg hc] at h
          rcases List.mem_cons.mp h with h | h
          · rw [h, hdrF_paramsHeader]
            decide
          · have hp := hdrFilter_oa3ParamLines (pi.parameters ++ op.parameters)
            rw [List.filter_eq_nil_iff] at hp
            exact hp w h
    · rcases hrb : op.requestBody with _ | rb
      · simp only [hrb] at h
        cases h
      · simp only [hrb] at h
        by_cases hc : (!rb.content.isEmpty) = true
        · rw [if_pos hc] at h
          rcases List.mem_cons.mp h with h | h
          · rw [h]
            decide
          · rcases List.mem_flatMap.mp h with ⟨mt, _, hmem⟩
            rcases hlk : lookupKey mt rb.content with _ | media
            · rw [hlk] at hmem
              cases hmem
            · rw [hlk] at hmem
              have hm := hdrFilter_oa3ReqMedia mt media
              rw [List.filter_eq_nil_iff] at hm
              exact hm w hmem
        · rw [if_neg hc] at h
          cases h
  · rcases hrs : op.responses with _ | rs
    · simp only [hrs] at h
      cases h
    · simp only [hrs] at h
      by_cases hc : (!rs.isEmpty) = true
      · rw [if_pos hc] at h
        rcases List.mem_cons.mp h with h | h
        · rw [h, hdrF_responsesHeader]
          decide
        · rcases List.mem_flatMap.mp h with ⟨code, _, hmem⟩
          rcases hlk : lookupKey code rs with _ | orr
          · rw [hlk] at hmem
            cases hmem
          · rcases orr with _ | r
            · rw [hlk] at hmem
              cases hmem
            · rw [hlk] at hmem
              have hm := hdrFilter_oa3RespWrites code r
              rw [List.filter_eq_nil_iff] at hm
              exact hm w hmem
      · rw [if_neg hc] at h
        cases h

theorem hdrFilter_oa3SchemaEntry (name : String) (ref : OA3SchemaRef) :
    (oa3SchemaEntryWrites name ref).filter isSectionHeader = [] := by
  rw [List.filter_eq_nil_iff]
  intro w hw
  simp only [oa3SchemaEntryWrites] at hw
  rcases List.mem_append.mp hw with h | h
  · rcases List.mem_cons.mp h with h | h
    · rw [h, hdrF_tagHeading]
      decide
    · cases h
  · rcases hv : ref.value with _ | v
    · simp only [hv] at h
      cases h
    · simp only [hv] at h
      rcases List.mem_append.mp h with h | h
      · rcases List.mem_append.mp h with h | h
        · by_cases hc : v.description ≠ ""
          · rw [if_pos hc] at h
            rcases List.mem_cons.mp h with h | h
            · rw [h, hdrF_dnl]
              decide
            · cases h
          · rw [if_neg hc] at h
            cases h
        · by_cases hc : (!v.properties.isEmpty) = true
          · rw [if_pos hc] at h
            rcases List.mem_cons.mp h with h | h
            · rw [h, hdrF_propsHeader]
              decide
            · rcases List.mem_flatMap.mp h with ⟨pn, _, hmem⟩
              rcases hlk : lookupKey pn v.properties with _ | ps
              · rw [hlk] at hmem
                cases hmem
              · rw [hlk] at hmem
                rcases List.mem_cons.mp hmem with h2 | h2
                · rw [h2]
                  intro hcontra
                  rw [hdrF_take1 _ '-' (by simp [String.data_append]) (by decide)
                    (by decide)] at hcontra
                  exact Bool.false_ne_true hcontra
                · cases h2
          · rw [if_neg hc] at h
            cases h
      · rcases hx : v.exampleVal with _ | e
        · rw [hx] at h
          cases h
        · rw [hx] at h
          have hfence := hdrFilter_fence "Example" "application/json" e
          rw [List.filter_eq_nil_iff] at hfence
          exact hfence w h

theorem hdrFilter_oa3OpFlat (l : List OA3OpRef) :
    (l.flatMap (fun r => writeOpenAPI3Operation r.method r.path r.pathItem r.op)).filter
      isSectionHeader = [] := by
  rw [List.filter_flatMap, List.flatMap_eq_nil_iff]
  intro r _
  exact hdrFilter_oa3OpWrites _ _ _ _

theorem hdrFilter_oa3TagBlocks (m : List (String × List OA3OpRef)) :
    ((sortStrings (m.map Prod.fst)).flatMap (fun name =>
        ("\n### " ++ name ++ "\n")
        :: (bucketVal name m).flatMap
             (fun r => writeOpenAPI3Operation r.method r.path r.pathItem r.op))).filter
      isSectionHeader = [] := by
  rw [List.filter_flatMap, List.flatMap_eq_nil_iff]
  intro name _
  rw [List.filter_cons, hdrF_tagHeading]
  simp only [Bool.false_eq_true, if_false]
  exact hdrFilter_oa3OpFlat _

theorem hdrFilter_oa3ExampleIndexLine (m p : String) (cr : String × Option OA3Response) :
    (oa3ExampleIndexLine m p cr).filter isSectionHeader = [] := by
  rw [List.filter_eq_nil_iff]
  intro w hw
  unfold oa3ExampleIndexLine at hw
  rcases hr : cr.2 with _ | r
  · simp only [hr] at hw
    cases hw
  · simp only [hr] at hw
    by_cases h1 : r.content.isEmpty
    · rw [if_pos h1] at hw
      cases hw
    · rw [if_neg h1] at hw
      by_cases h2 : (r.content.any
          (fun mv => mv.2.exampleVal.isSome || !mv.2.examples.isEmpty)) = true
      · rw [if_pos h2] at hw
        rcases List.mem_cons.mp hw with h | h
        · rw [h]
          intro hcontra
          rw [hdrF_take1 _ '-' (by simp [String.data_append]) (by decide)
            (by decide)] at hcontra
          exact Bool.false_ne_true hcontra
        · cases h
      · rw [if_neg h2] at hw
        cases hw

theorem hdrFilter_oa3ExamplesSeg (pm : List (String × OA3PathItem)) :
    ((sortStrings (pm.map Prod.fst)).flatMap (fun p =>
        match lookupKey p pm with
        | none => []
        | some pi =>
          (oa3Slots pi).flatMap (fun ms =>
            match ms.2 with
            | none => []
            | some op =>
              match op.responses with
              | none => []
              | some rs => rs.flatMap (oa3ExampleIndexLine ms.1 p)))).filter
      isSectionHeader = [] := by
  rw [List.filter_flatMap, List.flatMap_eq_nil_iff]
  intro p _
  rcases hlk : lookupKey p pm with _ | pi
  · simp [hlk]
  · simp only [hlk]
    rw [List.filter_flatMap, List.flatMap_eq_nil_iff]
    intro ms _
    rcases hop : ms.2 with _ | op
    · simp [hop]
    · simp only [hop]
      rcases hrs : op.responses with _ | rs
      · simp [hrs]
      · simp only [hrs]
        rw [List.filter_flatMap, List.flatMap_eq_nil_iff]
        intro cr _
        exact hdrFilter_oa3ExampleIndexLine _ _ _

theorem hdrFilter_oa3SchemasFlat (schemas : List (String × OA3SchemaRef)) :
    ((sortStrings (schemas.map Prod.fst)).flatMap (fun name =>
        match lookupKey name schemas with
        | none => []
        | some ref => oa3SchemaEntryWrites name ref)).filter isSectionHeader = [] := by
  rw [List.filter_flatMap, List.flatMap_eq_nil_iff]
  intro name _
  rcases hlk : lookupKey name schemas with _ | ref
  · simp [hlk]
  · simp [hlk, hdrFilter_oa3SchemaEntry]

theorem openAPI3_headerFilter (doc : OA3Doc) :
    (openAPI3Writes doc).filter isSectionHeader
      = ["## Overview\n", "\n## Authentication\n", "\n## Servers\n", "\n## Tags\n",
         "\n## Endpoints by Tag\n"]
        ++ (if doc.components.schemas.isEmpty then [] else ["\n## Schemas\n"])
        ++ ["\n## Examples\n"] := by
  rcases hpa : doc.paths with _ | pm <;>
  · simp only [openAPI3Writes, hpa, List.filter_append,
      apply_ite (List.filter isSectionHeader), List.filter_cons, List.filter_nil,
      hdrF_titleLine, hdrT_overview, hdrF_versionLine, hdrF_descLine, hdrFilter_oa3InfoSeg,
      hdrT_auth, hdrF_noneDefined, hdrFilter_oa3AuthSeg,
      hdrT_servers, hdrFilter_serverSeg,
      hdrT_tags, hdrFilter_oa3TagSeg,
      hdrT_endpoints, hdrFilter_oa3TagBlocks, hdrF_untaggedHeading, hdrFilter_oa3OpFlat,
      hdrT_schemas, hdrFilter_oa3SchemasFlat,
      hdrT_examples, hdrFilter_oa3ExamplesSeg,
      Bool.false_eq_true, if_false, if_true, ite_self,
      List.nil_append, List.append_nil]
    by_cases hd : doc.components.schemas.isEmpty <;> simp [hd]

theorem infix_of_append {α} (x : List α) {m l : List α} (h : List.IsInfix m l) :
    List.IsInfix m (x ++ l) :=
  h.trans (List.suffix_append x l).isInfix

/-- C3: corrected section totality. The five headings Overview, Authentication,
Servers, Tags and Endpoints by Tag always appear exactly once, in order, followed
by Examples; but the Schemas heading is emitted only when the schema map is
non-empty, in both adapters. The "- None defined" placeholder does appear for an
empty Authentication section (likewise Servers and Tags), shown here for
Authentication in both adapters. -/
theorem C3_section_totality (s : SwaggerDoc) (d : OA3Doc) :
    ((swagger2Writes s).filter isSectionHeader
        = ["## Overview\n", "\n## Authentication\n", "\n## Servers\n", "\n## Tags\n",
           "\n## Endpoints by Tag\n"]
          ++ (if s.definitions.isEmpty then [] else ["\n## Schemas\n"])
          ++ ["\n## Examples\n"])
    ∧ ((openAPI3Writes d).filter isSectionHeader
        = ["## Overview\n", "\n## Authentication\n", "\n## Servers\n", "\n## Tags\n",
           "\n## Endpoints by Tag\n"]
          ++ (if d.components.schemas.isEmpty then [] else ["\n## Schemas\n"])
          ++ ["\n## Examples\n"])
    ∧ (s.securityDefinitions.isEmpty = true →
        List.IsInfix ["\n## Authentication\n", "- None defined\n"] (swagger2Writes s))
    ∧ (d.components.securitySchemes.isEmpty = true →
        List.IsInfix ["\n## Authentication\n", "- None defined\n"] (openAPI3Writes d)) := by
  refine ⟨swagger2_headerFilter s, openAPI3_headerFilter d, ?_, ?_⟩
  · intro h
    simp only [swagger2Writes, h, List.append_assoc]
    rw [if_pos trivial]
    exact infix_of_append _ (infix_of_append _ ⟨[], _, rfl⟩)
  · intro h
    simp only [openAPI3Writes, h, List.append_assoc]
    rw [if_pos trivial]
    exact infix_of_append _ (infix_of_append _ (infix_of_append _ ⟨[], _, rfl⟩))

/-- C3 witness: the corrected theorem applied to the two concrete empty
documents, with both emptiness hypotheses discharged by evaluation. -/
theorem C3_witness :
    List.IsInfix ["\n## Authentication\n", "- None defined\n"] (swagger2Writes s2DocEmpty)
      ∧ List.IsInfix ["\n## Authentication\n", "- None defined\n"]
          (openAPI3Writes oa3DocEmpty) :=
  ⟨(C3_section_totality s2DocEmpty oa3DocEmpty).2.2.1 (by decide),
   (C3_section_totality s2DocEmpty oa3DocEmpty).2.2.2 (by decide)⟩

/-- C3 counterexample: for the dialect-A document with no definitions the
Schemas heading is not written at all (the claim promises all seven headings
for every valid document), and the Examples heading is the very last write, so
nothing — not even "- None defined" — is printed under it. -/
theorem C3_counterexample :
    "\n## Schemas\n" ∉ swagger2Writes s2DocEmpty
      ∧ (swagger2Writes s2DocEmpty).filter isSectionHeader
          = ["## Overview\n", "\n## Authentication\n", "\n## Servers\n", "\n## Tags\n",
             "\n## Endpoints by Tag\n", "\n## Examples\n"]
      ∧ (swagger2Writes s2DocEmpty).getLast? = some "\n## Examples\n" := by
  decide
